import Mathlib

/-! # OpenTomb engine core: room-aware collision filtering and room coherence

A shallow embedding of the physics callbacks of `src/engine/engine.cpp`:

* `engine.roomNearCallback`, the broad-phase pair filter;
* `engine.BtEngineClosestRayResultCallback.addSingleResult` and
  `engine.BtEngineClosestConvexResultCallback.addSingleResult`, the ray and
  sweep hit filters;
* `engine.internalTickCallback`, the post-physics hook that re-resolves rooms;
* `engine.internalPreTickCallback` and `engine.storeEntityLerpTransforms`, the
  pre-physics hook and the pose snapshot it ends with;
* `engine.execCmd` and `engine.loadMap`, the console command dispatcher and the
  level loader;
* `engine.getLevelName` and `engine.getAutoexecName`, the level name of a path
  and the name of the autoexec script, with `size_t` arithmetic modulo `2 ^ 64`;
* `engine.Game_Frame`, the fixed-step driver declared in `src/engine/game.h`,
  whose definition is not available and which is modelled from the spec.

Pointers are addresses (`Nat`) wrapped in `Option`, `none` being `nullptr`.
World objects live in a heap `Nat → world.Object`; a callback that mutates an
object returns the updated heap.  Calls into the Bullet dispatcher are recorded
as a list of events, in call order.
-/

namespace world

/-- A `world::Room*`: the address of a room, `none` for `nullptr`. -/
abbrev RoomPtr := Option Nat

/-- A `world::Object*`: the address of a world object, `none` for `nullptr`. -/
abbrev ObjectPtr := Option Nat

/-- The enumeration `world::CollisionType`.  Its declaration is outside the
available sources; the callbacks only ever compare against `Ghost`, so every
other enumerator is kept as an anonymous tag. -/
inductive CollisionType
  | Ghost
  | Other (tag : Nat)
  deriving DecidableEq, Repr

/-- The part of a `world::Object` that the physics callbacks read or write:
its current-room pointer, its collision type, and whether its dynamic type is
(derived from) `world::BulletObject`, which is what
`dynamic_cast<world::BulletObject*>` observes. -/
structure Object where
  m_room : RoomPtr
  m_collisionType : CollisionType
  isBulletObject : Bool
  deriving DecidableEq, Repr

/-- Modelled from the spec: `Object::getRoom` (declared in `world/object.h`,
not among the available sources).  The spec describes the current room of a
world object as a nullable lookup reference; the accessor reads it. -/
def Object.getRoom (o : Object) : RoomPtr := o.m_room

/-- Modelled from the spec: `Object::setRoom` (declared in `world/object.h`,
not among the available sources).  The mutator overwrites the current-room
lookup reference with the pointer it is given and touches nothing else. -/
def Object.setRoom (o : Object) (room : RoomPtr) : Object := { o with m_room := room }

/-- Reads `Object::getCollisionType`, the stored collision type. -/
def Object.getCollisionType (o : Object) : CollisionType := o.m_collisionType

/-- The heap of world objects, addressed by pointer value. -/
abbrev ObjectHeap := Nat → Object

/-- A point in world space (`glm::vec3`).  The callbacks never compute with
the coordinates, they only hand the point to the room lookup. -/
structure Vec3 where
  x : ℚ
  y : ℚ
  z : ℚ
  deriving DecidableEq

/-- The world data the filters consult: the object heap and the precomputed
near-room relation between room addresses (`areNear` of the spec, 4.1). -/
structure World where
  objects : ObjectHeap
  areNear : Nat → Nat → Bool

/-- Modelled from the spec: `Room::isInNearRoomsList` (declared in
`world/room.h`, not among the available sources).  Following the spec (4.2,
step 3), the test `r0->isInNearRoomsList(*r1)` holds when the two rooms are
identical or when the precomputed near relation holds between them. -/
def World.isInNearRoomsList (w : World) (r0 r1 : Nat) : Bool :=
  r0 == r1 || w.areNear r0 r1

end world

/-! ## The Bullet side -/

/-- Bullet collision flag `btCollisionObject::CF_STATIC_OBJECT`. -/
def CF_STATIC_OBJECT : Nat := 1

/-- Bullet collision flag `btCollisionObject::CF_KINEMATIC_OBJECT`. -/
def CF_KINEMATIC_OBJECT : Nat := 2

/-- A `btTransform`, reduced to its origin. -/
structure btTransform where
  m_origin : world.Vec3
  deriving DecidableEq

/-- Reads `btTransform::getOrigin`. -/
def btTransform.getOrigin (t : btTransform) : world.Vec3 := t.m_origin

/-- The part of a `btCollisionObject` the callbacks look at: the user pointer
(the owning world object), the collision flags, whether the object is a
`btRigidBody` (so that `btRigidBody::upcast` succeeds), and for a rigid body
its motion state, represented by the world transform it reports (`none` when
`getMotionState()` is null). -/
structure btCollisionObject where
  m_userObjectPointer : world.ObjectPtr
  m_collisionFlags : Nat
  isRigidBody : Bool
  m_optionalMotionState : Option btTransform
  deriving DecidableEq

/-- Reads `btCollisionObject::getUserPointer`. -/
def btCollisionObject.getUserPointer (o : btCollisionObject) : world.ObjectPtr :=
  o.m_userObjectPointer

/-- Bullet: `(m_collisionFlags & CF_STATIC_OBJECT) != 0`. -/
def btCollisionObject.isStaticObject (o : btCollisionObject) : Bool :=
  (o.m_collisionFlags &&& CF_STATIC_OBJECT) != 0

/-- Bullet: `(m_collisionFlags & (CF_KINEMATIC_OBJECT | CF_STATIC_OBJECT)) != 0`. -/
def btCollisionObject.isStaticOrKinematicObject (o : btCollisionObject) : Bool :=
  (o.m_collisionFlags &&& (CF_KINEMATIC_OBJECT ||| CF_STATIC_OBJECT)) != 0

/-- Bullet: `btRigidBody::upcast`, the object itself when it is a rigid body
and null otherwise. -/
def btCollisionObject.upcast (o : btCollisionObject) : Option btCollisionObject :=
  if o.isRigidBody then some o else none

/-- Reads `btRigidBody::getMotionState`. -/
def btCollisionObject.getMotionState (o : btCollisionObject) : Option btTransform :=
  o.m_optionalMotionState

/-- A `btBroadphaseProxy`; `m_clientObject` is the collision object it stands for. -/
structure btBroadphaseProxy where
  m_clientObject : btCollisionObject
  deriving DecidableEq

/-- A `btBroadphasePair`: the two proxies of a candidate collision pair. -/
structure btBroadphasePair where
  m_pProxy0 : btBroadphaseProxy
  m_pProxy1 : btBroadphaseProxy
  deriving DecidableEq

/-- Calls a near callback makes into the collision dispatcher. -/
inductive DispatcherCall
  | defaultNearCallback (collisionPair : btBroadphasePair)
  deriving DecidableEq

namespace engine

open world

/-- The expression `c ? c->getRoom() : nullptr` of the callbacks. -/
def roomOf (w : World) (c : ObjectPtr) : RoomPtr :=
  match c with
  | some a => (w.objects a).getRoom
  | none => none

/-- The overlapping room collision filter `roomNearCallback`.  The result is the list of
dispatcher calls the callback makes for the pair. -/
def roomNearCallback (w : World) (collisionPair : btBroadphasePair) : List DispatcherCall :=
  let c0 := collisionPair.m_pProxy0.m_clientObject.getUserPointer
  let r0 := roomOf w c0
  let c1 := collisionPair.m_pProxy1.m_clientObject.getUserPointer
  let r1 := roomOf w c1
  if c1.isSome && c1 == c0 then
    if collisionPair.m_pProxy0.m_clientObject.isStaticOrKinematicObject ||
       collisionPair.m_pProxy1.m_clientObject.isStaticOrKinematicObject then
      []                                      -- No self interaction
    else
      [DispatcherCall.defaultNearCallback collisionPair]
  else if r0.isNone && r1.isNone then
    [DispatcherCall.defaultNearCallback collisionPair]  -- Both are out of rooms
  else
    match r0, r1 with
    | some a0, some a1 =>
      if w.isInNearRoomsList a0 a1 then [DispatcherCall.defaultNearCallback collisionPair]
      else []
    | _, _ => []

/-! ### Ray and sweep hit filters -/

/-- A `btCollisionWorld::LocalRayResult`: the collision object that was hit
and the hit fraction along the ray. -/
structure LocalRayResult where
  m_collisionObject : btCollisionObject
  m_hitFraction : ℚ

/-- A `btCollisionWorld::LocalConvexResult`: the collision object that was
hit and the hit fraction along the sweep. -/
structure LocalConvexResult where
  m_hitCollisionObject : btCollisionObject
  m_hitFraction : ℚ

/-- The members `BtEngineClosestRayResultCallback` adds to Bullet's
`ClosestRayResultCallback`, together with the state `base` of that base-class
sub-object (closest hit fraction, hit object, hit point and normal). -/
structure BtEngineClosestRayResultCallback (σ : Type) where
  m_object : ObjectPtr
  m_skip_ghost : Bool
  base : σ

/-- The members `BtEngineClosestConvexResultCallback` adds to Bullet's
`ClosestConvexResultCallback`, together with the state `base` of that
base-class sub-object. -/
structure BtEngineClosestConvexResultCallback (σ : Type) where
  m_object : ObjectPtr
  m_skip_ghost : Bool
  base : σ

/-- The guard `c1 && (c1 == m_object || (m_skip_ghost && c1->getCollisionType() == Ghost))`
shared by the two hit filters. -/
def skipsHit (w : World) (m_object : ObjectPtr) (m_skip_ghost : Bool) (c1 : ObjectPtr) : Bool :=
  match c1 with
  | none => false
  | some a =>
    c1 == m_object || (m_skip_ghost && (w.objects a).getCollisionType == CollisionType.Ghost)

/-- The ray hit filter `BtEngineClosestRayResultCallback::addSingleResult`.
`baseAddSingleResult` is Bullet's `ClosestRayResultCallback::addSingleResult`
acting on the base-class state.  The result is the callback after the call and
the returned `btScalar`. -/
def BtEngineClosestRayResultCallback.addSingleResult {σ : Type} (w : World)
    (baseAddSingleResult : σ → LocalRayResult → Bool → σ × ℚ)
    (cb : BtEngineClosestRayResultCallback σ) (rayResult : LocalRayResult)
    (normalInWorldSpace : Bool) : BtEngineClosestRayResultCallback σ × ℚ :=
  let c1 := rayResult.m_collisionObject.getUserPointer
  if skipsHit w cb.m_object cb.m_skip_ghost c1 then
    (cb, 1)
  else
    let r0 := roomOf w cb.m_object
    let r1 := roomOf w c1
    if r0.isNone || r1.isNone then
      let res := baseAddSingleResult cb.base rayResult normalInWorldSpace
      ({ cb with base := res.1 }, res.2)
    else
      match r0, r1 with
      | some a0, some a1 =>
        if w.isInNearRoomsList a0 a1 then
          let res := baseAddSingleResult cb.base rayResult normalInWorldSpace
          ({ cb with base := res.1 }, res.2)
        else
          (cb, 1)
      | _, _ => (cb, 1)

/-- The sweep hit filter `BtEngineClosestConvexResultCallback::addSingleResult`.
`baseAddSingleResult` is Bullet's `ClosestConvexResultCallback::addSingleResult`
acting on the base-class state. -/
def BtEngineClosestConvexResultCallback.addSingleResult {σ : Type} (w : World)
    (baseAddSingleResult : σ → LocalConvexResult → Bool → σ × ℚ)
    (cb : BtEngineClosestConvexResultCallback σ) (convexResult : LocalConvexResult)
    (normalInWorldSpace : Bool) : BtEngineClosestConvexResultCallback σ × ℚ :=
  let r0 := roomOf w cb.m_object
  let c1 := convexResult.m_hitCollisionObject.getUserPointer
  let r1 := roomOf w c1
  if skipsHit w cb.m_object cb.m_skip_ghost c1 then
    (cb, 1)
  else if r0.isNone || r1.isNone then
    let res := baseAddSingleResult cb.base convexResult normalInWorldSpace
    ({ cb with base := res.1 }, res.2)
  else
    match r0, r1 with
    | some a0, some a1 =>
      if w.isInNearRoomsList a0 a1 then
        let res := baseAddSingleResult cb.base convexResult normalInWorldSpace
        ({ cb with base := res.1 }, res.2)
      else
        (cb, 1)
    | _, _ => (cb, 1)

/-! ### Post-physics step hook -/

/-- The body of the loop of `internalTickCallback` for one collision object:
when the object is a non-static rigid body with a motion state whose user
pointer is a `world::BulletObject`, the owner gets the room that
`Room_FindPosCogerrence` returns for the origin of the motion-state transform,
looked up with the owner's current room as hint.  `Room_FindPosCogerrence`
itself is defined outside the available sources and is a parameter. -/
def tickCollisionObject (Room_FindPosCogerrence : Vec3 → RoomPtr → RoomPtr)
    (objects : ObjectHeap) (obj : btCollisionObject) : ObjectHeap :=
  match obj.upcast with
  | none => objects
  | some body =>
    if !body.isStaticObject then
      match body.getMotionState with
      | none => objects
      | some worldTrans =>
        match body.getUserPointer with
        | none => objects
        | some object =>
          if (objects object).isBulletObject then
            Function.update objects object
              ((objects object).setRoom
                (Room_FindPosCogerrence worldTrans.getOrigin (objects object).getRoom))
          else objects
    else objects

/-- The guard `body && !body->isStaticObject() && body->getMotionState()` of
the loop body of `internalTickCallback`, as a predicate: the collision objects
whose owner the hook may reassign. -/
def isTrackedBody (obj : btCollisionObject) : Bool :=
  obj.isRigidBody && !obj.isStaticObject && obj.getMotionState.isSome

/-- The loop `for(int i = n - 1; i >= 0; i--)` of `internalTickCallback`, with
`k = i + 1` iterations left to run. -/
def internalTickLoop (Room_FindPosCogerrence : Vec3 → RoomPtr → RoomPtr)
    (collisionObjectArray : List btCollisionObject) : Nat → ObjectHeap → ObjectHeap
  | 0, objects => objects
  | i + 1, objects =>
    match collisionObjectArray[i]? with
    | some obj =>
      internalTickLoop Room_FindPosCogerrence collisionObjectArray i
        (tickCollisionObject Room_FindPosCogerrence objects obj)
    | none => internalTickLoop Room_FindPosCogerrence collisionObjectArray i objects

/-- The post-physics step callback `internalTickCallback`.  The dynamics world
it is registered on is `bt_engine_dynamicsWorld`, so the `world` argument and
the global denote the same collision object array. -/
def internalTickCallback (Room_FindPosCogerrence : Vec3 → RoomPtr → RoomPtr)
    (collisionObjectArray : List btCollisionObject) (objects : ObjectHeap) : ObjectHeap :=
  internalTickLoop Room_FindPosCogerrence collisionObjectArray
    collisionObjectArray.length objects

/-! ### Concrete scenes

Small worlds on which the statements below are exercised. -/

/-- A heap with three roomed objects (addresses 0, 1, 2 in rooms 1, 2, 3), a
ghost in room 1 at address 4, and room-less objects everywhere else. -/
def sceneObjects : ObjectHeap := fun a =>
  match a with
  | 0 => { m_room := some 1, m_collisionType := CollisionType.Other 0, isBulletObject := true }
  | 1 => { m_room := some 2, m_collisionType := CollisionType.Other 0, isBulletObject := true }
  | 2 => { m_room := some 3, m_collisionType := CollisionType.Other 1, isBulletObject := false }
  | 4 => { m_room := some 1, m_collisionType := CollisionType.Ghost, isBulletObject := false }
  | _ => { m_room := none, m_collisionType := CollisionType.Other 0, isBulletObject := false }

/-- A world over `sceneObjects` in which rooms 1 and 2 are near each other and
room 3 is near nothing. -/
def sceneWorld : World :=
  { objects := sceneObjects
    areNear := fun r s => (r == 1 && s == 2) || (r == 2 && s == 1) }

/-- A collider owned by `owner` with the given Bullet collision flags. -/
def collider (owner : ObjectPtr) (flags : Nat) : btCollisionObject :=
  { m_userObjectPointer := owner, m_collisionFlags := flags, isRigidBody := true,
    m_optionalMotionState := none }

/-- The broad-phase pair of two colliders. -/
def pairOf (c0 c1 : btCollisionObject) : btBroadphasePair :=
  { m_pProxy0 := { m_clientObject := c0 }, m_pProxy1 := { m_clientObject := c1 } }

/-- A base callback that records the hit fraction as the new closest hit and
returns it, standing in for `ClosestRayResultCallback::addSingleResult`. -/
def recordRayHit (_closest : ℚ) (rayResult : LocalRayResult) (_normalInWorldSpace : Bool) :
    ℚ × ℚ :=
  (rayResult.m_hitFraction, rayResult.m_hitFraction)

/-- A base callback that records the hit fraction as the new closest hit and
returns it, standing in for `ClosestConvexResultCallback::addSingleResult`. -/
def recordConvexHit (_closest : ℚ) (convexResult : LocalConvexResult)
    (_normalInWorldSpace : Bool) : ℚ × ℚ :=
  (convexResult.m_hitFraction, convexResult.m_hitFraction)

/-- A non-static rigid body owned by `owner` whose motion state reports the
origin `(x, 0, 0)`. -/
def bodyAt (owner : ObjectPtr) (flags : Nat) (x : ℚ) : btCollisionObject :=
  { m_userObjectPointer := owner, m_collisionFlags := flags, isRigidBody := true,
    m_optionalMotionState := some { m_origin := { x := x, y := 0, z := 0 } } }

/-- A room lookup for a level made of room 1 (`0 ≤ x < 100`) and room 2
(`100 ≤ x`); points with `x < 0` lie outside every room. -/
def roomByX : Vec3 → RoomPtr → RoomPtr := fun p _hint =>
  if p.x < 0 then none else if p.x < 100 then some 1 else some 2

/-! ### Pre-physics step hook and pose snapshot -/

/-- A `util::Duration`, measured in seconds.  The conversion
`util::fromSeconds` from a `float` number of seconds is defined outside the
available sources and is a parameter wherever it is used. -/
abbrev Duration := ℚ

/-- The fields of a `world::Entity` that `storeEntityLerpTransforms` reads. -/
structure Entity where
  m_enabled : Bool
  m_typeFlags : Nat
  deriving DecidableEq, Repr

/-- The part of `engine_world` the hooks walk over: the player character
(`none` when the pointer is null) and the entity tree, a `std::map` listed in
key order as pairs of key and entity address. -/
structure EntityWorld where
  character : Option Nat
  entity_tree : List (Nat × Nat)

/-- The calls `storeEntityLerpTransforms` makes on an entity. -/
inductive PoseCall
  | updatePose (entity : Nat)
  | updateRigidBody (entity : Nat) (force : Bool)
  | ghostUpdate (entity : Nat)
  deriving DecidableEq, Repr

/-- The three statements `m_skeleton.updatePose(); updateRigidBody(false);
ghostUpdate();` applied to one entity. -/
def poseCalls (entity : Nat) : List PoseCall :=
  [PoseCall.updatePose entity, PoseCall.updateRigidBody entity false, PoseCall.ghostUpdate entity]

/-- The loop over `engine_world.entity_tree` in `storeEntityLerpTransforms`. -/
def storeEntityTreeLerpTransforms (ENTITY_TYPE_DYNAMIC : Nat) (entities : Nat → Entity) :
    List (Nat × Nat) → List PoseCall
  | [] => []
  | entityPair :: rest =>
    let entity := entityPair.2
    if !(entities entity).m_enabled then
      storeEntityTreeLerpTransforms ENTITY_TYPE_DYNAMIC entities rest
    else if ((entities entity).m_typeFlags &&& ENTITY_TYPE_DYNAMIC) != 0 then
      storeEntityTreeLerpTransforms ENTITY_TYPE_DYNAMIC entities rest
    else
      poseCalls entity ++ storeEntityTreeLerpTransforms ENTITY_TYPE_DYNAMIC entities rest

/-- The function `storeEntityLerpTransforms`: the pose calls it makes, in
order.  The flag constant `ENTITY_TYPE_DYNAMIC` is defined outside the
available sources and is a parameter.  The three calls act on the pose and the
physics representation of the entity; `m_enabled` and `m_typeFlags` are read
from the entity heap as it is when the function is entered. -/
def storeEntityLerpTransforms (ENTITY_TYPE_DYNAMIC : Nat) (entities : Nat → Entity)
    (engine_world : EntityWorld) : List PoseCall :=
  (match engine_world.character with
    | some character =>
      if ((entities character).m_typeFlags &&& ENTITY_TYPE_DYNAMIC) == 0 then
        poseCalls character
      else []
    | none => []) ++
  storeEntityTreeLerpTransforms ENTITY_TYPE_DYNAMIC entities engine_world.entity_tree

/-- The calls `internalPreTickCallback` makes, with their arguments. -/
inductive PreTickCall
  | doTasks (time : Duration)
  | Game_UpdateAI
  | updateAudio
  | frame (entity : Nat) (time : Duration)
  | storeEntityLerpTransforms
  deriving DecidableEq

/-- The pre-physics step callback `internalPreTickCallback`.  The input is the
value of the global `engine_frame_time` at entry; the result is the value of
that global at exit and the calls made, in order.  While the calls run the
global holds `fromSeconds timeStep`; the last statement restores the value
saved at entry.  The character pointer and the entity tree are taken as they
are at entry. -/
def internalPreTickCallback (fromSeconds : ℚ → Duration) (engine_world : EntityWorld)
    (engine_frame_time : Duration) (timeStep : ℚ) : Duration × List PreTickCall :=
  let engine_frame_time_backup := engine_frame_time
  let calls :=
    [PreTickCall.doTasks engine_frame_time_backup, PreTickCall.Game_UpdateAI,
      PreTickCall.updateAudio] ++
    (match engine_world.character with
      | some character => [PreTickCall.frame character (fromSeconds timeStep)]
      | none => []) ++
    engine_world.entity_tree.map (fun entPair => PreTickCall.frame entPair.2 (fromSeconds timeStep)) ++
    [PreTickCall.storeEntityLerpTransforms]
  (engine_frame_time_backup, calls)

/-- The entities whose `frame` the pre-tick hook calls: the character, when
present, followed by the entries of the entity tree. -/
def frameRecipients (engine_world : EntityWorld) : List Nat :=
  engine_world.character.toList ++ engine_world.entity_tree.map Prod.snd

/-- Recognises a call of `frame`. -/
def PreTickCall.isFrame : PreTickCall → Bool
  | PreTickCall.frame _ _ => true
  | _ => false

/-- A world with a character at address 0 and two entities at addresses 10
and 11 under the keys 1 and 2. -/
def sceneEntityWorld : EntityWorld :=
  { character := some 0, entity_tree := [(1, 10), (2, 11)] }

/-- An entity heap for `sceneEntityWorld` with the dynamic flag taken to be
bit `0x40`: the character is disabled and not dynamic, entity 10 is enabled
and not dynamic, entity 11 is enabled and dynamic, all others are disabled. -/
def sceneEntities : Nat → Entity := fun a =>
  match a with
  | 0 => { m_enabled := false, m_typeFlags := 0 }
  | 10 => { m_enabled := true, m_typeFlags := 1 }
  | 11 => { m_enabled := true, m_typeFlags := 0x41 }
  | _ => { m_enabled := false, m_typeFlags := 0 }

/-! ### Fixed-step simulation driver -/

/-- The macro `GAME_LOGIC_REFRESH_INTERVAL` of `game.h`, `1.0f / 60.0f`
seconds, as an exact rational. -/
def GAME_LOGIC_REFRESH_INTERVAL : ℚ := 1 / 60

/-- The macro `MAX_SIM_SUBSTEPS` of `game.h`. -/
def MAX_SIM_SUBSTEPS : Nat := 6

/-- The simulation clock state of the spec (section 3), with two counters
added for bookkeeping: `accumulator` is the wall-clock time not yet consumed by
a logic step, `simulated` the simulated time consumed so far and `steps` the
number of logic steps executed so far. -/
structure SimulationClock where
  accumulator : ℚ
  simulated : ℚ
  steps : Nat
  deriving DecidableEq

/-- Modelled from the spec: the stepping loop of the fixed-step driver (4.3),
whose code (`Game_Frame`, `Game_Tick` in `game.cpp`) is only declared in
`game.h`.  While the accumulator holds at least one fixed step and fewer than
the maximum number of steps were taken this frame (`budget` steps remain), one
fixed step is consumed and one logic step is executed. -/
def steppingLoop (fixedStep : ℚ) : Nat → SimulationClock → SimulationClock
  | 0, clock => clock
  | budget + 1, clock =>
    if fixedStep ≤ clock.accumulator then
      steppingLoop fixedStep budget
        { accumulator := clock.accumulator - fixedStep
          simulated := clock.simulated + fixedStep
          steps := clock.steps + 1 }
    else clock

/-- Modelled from the spec: one rendered frame of the fixed-step driver (4.3),
for a fixed step `fixedStep` and at most `maxSteps` steps per frame.  The
measured delta is added to the accumulator, the stepping loop runs, and if a
whole step or more is still accumulated when the loop stops (the maximum step
count was reached) that excess is dropped instead of carried over; a remainder
smaller than one step carries over to the next frame. -/
def driverFrame (fixedStep : ℚ) (maxSteps : Nat) (clock : SimulationClock) (time : ℚ) :
    SimulationClock :=
  let stepped := steppingLoop fixedStep maxSteps
    { clock with accumulator := clock.accumulator + time }
  if fixedStep ≤ stepped.accumulator then { stepped with accumulator := 0 } else stepped

/-- Modelled from the spec: `Game_Frame` (declared in `game.h`, defined outside
the available sources), the driver frame with the step
`GAME_LOGIC_REFRESH_INTERVAL` and the step limit `MAX_SIM_SUBSTEPS`. -/
def Game_Frame (clock : SimulationClock) (time : ℚ) : SimulationClock :=
  driverFrame GAME_LOGIC_REFRESH_INTERVAL MAX_SIM_SUBSTEPS clock time

/-- The clock at engine start: nothing accumulated, nothing simulated. -/
def SimulationClock.start : SimulationClock :=
  { accumulator := 0, simulated := 0, steps := 0 }

/-! ### Console commands -/

/-- The font styles of `gui::FontStyle` that `execCmd` passes to the console. -/
inductive FontStyle
  | ConsoleInfo
  | ConsoleWarning
  | ConsoleEvent
  | ConsoleNotify
  deriving DecidableEq, Repr

/-- What `execCmd` itself does to the console and the engine: lines it adds,
the help notifications, and the effect of a built-in command, recorded as one
event carrying the command name and the rest of the command line. -/
inductive ConsoleCall
  | addLine (text : String) (style : FontStyle)
  | helpNotifications
  | builtin (command : String) (rest : Option String)
  deriving DecidableEq

/-- How a call of `engine_lua.doString` ends: normally, or by throwing
`lua::RuntimeError`, `lua::LoadError` or some other exception. -/
inductive ScriptOutcome
  | completed
  | runtimeError (what : String)
  | loadError (what : String)
  | otherException (what : String)
  deriving DecidableEq

/-- How a call of `execCmd` ends: it returns a value, an exception leaves it,
or the process exits (the command `exit` calls `shutdown`, which does not
return). -/
inductive CmdResult
  | returned (value : Int)
  | thrown (what : String)
  | processExit (code : Int)
  deriving DecidableEq

/-- The built-in commands of `execCmd` whose branch ends in `return 1`. -/
def commandsReturningOne : List String :=
  ["goto", "save", "load", "cls", "spacing", "showing_lines", "r_wireframe", "r_points",
   "r_coll", "r_normals", "r_portals", "r_room_boxes", "r_boxes", "r_axis", "r_allmodels",
   "r_dummy_statics", "r_skip_room", "room_info", "xxx"]

/-- All built-in commands of `execCmd`. -/
def builtinCommands : List String := "help" :: "exit" :: commandsReturningOne

/-- The loop `while(ch != nullptr)` of `execCmd`.  `parse_token`
(`script::MainEngine::parse_token`, outside the available sources) maps the
remaining command line to the pointer past the token (`none` for null) and the
token read.  The result is the console log and how the call ends; `none` means
the loop has not ended within `fuel` iterations. -/
def execCmdLoop (parse_token : String → Option String × String)
    (doString : String → ScriptOutcome) :
    Nat → Option String → List ConsoleCall → List ConsoleCall × Option CmdResult
  | _, none, log => (log, some (CmdResult.returned 0))
  | 0, some _, log => (log, none)
  | fuel + 1, some ch, log =>
    let pch := ch
    let next := (parse_token ch).1
    let token := (parse_token ch).2
    if token = "help" then
      execCmdLoop parse_token doString fuel next (log ++ [ConsoleCall.helpNotifications])
    else if token = "exit" then
      (log ++ [ConsoleCall.builtin token next], some (CmdResult.processExit 0))
    else if token ∈ commandsReturningOne then
      (log ++ [ConsoleCall.builtin token next], some (CmdResult.returned 1))
    else if token ≠ "" then
      let echoed := log ++ [ConsoleCall.addLine pch FontStyle.ConsoleEvent]
      match doString pch with
      | ScriptOutcome.completed => (echoed, some (CmdResult.returned 0))
      | ScriptOutcome.runtimeError what =>
        (echoed ++ [ConsoleCall.addLine what FontStyle.ConsoleWarning],
          some (CmdResult.returned 0))
      | ScriptOutcome.loadError what =>
        (echoed ++ [ConsoleCall.addLine what FontStyle.ConsoleWarning],
          some (CmdResult.returned 0))
      | ScriptOutcome.otherException what => (echoed, some (CmdResult.thrown what))
    else
      execCmdLoop parse_token doString fuel next log

/-- The function `execCmd`, run for at most `fuel` iterations of its loop on
an empty console log. -/
def execCmd (parse_token : String → Option String × String)
    (doString : String → ScriptOutcome) (ch : Option String) (fuel : Nat) :
    List ConsoleCall × Option CmdResult :=
  execCmdLoop parse_token doString fuel ch []

/-- A tokenizer for the scenes: the token is the text up to the first blank,
the rest of the line follows it. -/
def sceneParseToken (line : String) : Option String × String :=
  let token := line.toList.takeWhile (fun c => c != ' ')
  let rest := (line.toList.dropWhile (fun c => c != ' ')).drop 1
  (if rest.isEmpty then none else some (String.mk rest), String.mk token)

/-- A script engine for the scenes: `setgravity` is not a known function and
raises a runtime error, a line starting with `(` does not parse and raises a
load error, everything else runs. -/
def sceneDoString (line : String) : ScriptOutcome :=
  if (sceneParseToken line).2 = "setgravity" then
    ScriptOutcome.runtimeError "attempt to call a nil value"
  else if line.toList.head? = some '(' then
    ScriptOutcome.loadError "unexpected symbol"
  else ScriptOutcome.completed

/-! ### Level loading -/

/-- The level formats distinguished by `getLevelFormat`. -/
inductive LevelFormat
  | LEVEL_FORMAT_PC
  | LEVEL_FORMAT_PSX
  | LEVEL_FORMAT_DC
  | LEVEL_FORMAT_OPENTOMB
  deriving DecidableEq, Repr

/-- The function `getLevelFormat`: currently only PC levels are supported. -/
def getLevelFormat (_name : String) : LevelFormat := LevelFormat.LEVEL_FORMAT_PC

/-- Calls `loadMap` and `loadPCLevel` make into the console, the GUI, the
renderer, the script engine and the audio engine. -/
inductive LoadCall
  | warning_SYSWARN_FILE_NOT_FOUND (name : String)
  | drawLoadScreen (value : Nat)
  | hideSkyBox
  | resetWorld
  | lua_clean
  | audio_init
  | notify_SYSNOTE_LOADED_PC_LEVEL
  | notify_SYSNOTE_ENGINE_VERSION
  | notify_SYSNOTE_NUM_ROOMS
  | lua_prepare
  | setWorld
  | fadeStart
  | notifierStop
  deriving DecidableEq

/-- The engine state `loadMap` works on: the world, the current room of the
camera, the level path of the gameflow manager, and the calls made so far. -/
structure EngineState (W : Type) where
  engine_world : W
  cameraCurrentRoom : RoomPtr
  levelPath : String
  calls : List LoadCall

/-- The collaborators of `loadMap` that are defined outside the available
sources: the file test, the operations on the world, and the level loader
(`createLoader` followed by `load`, `none` when no loader can be created).
`resetIdentity` stands for the assignments `id = 0; name = nullptr; type = 0`. -/
structure LoadOps (W L : Type) where
  is_regular_file : String → Bool
  empty : W → W
  prepare : W → W
  createLoader : String → Option L
  TR_GenWorld : W → L → W
  resetIdentity : W → W
  Game_Prepare : W → W

/-- The function `loadPCLevel`.  The arguments of the three notifications
(game version, level name, number of rooms) are not recorded. -/
def loadPCLevel {W L : Type} (ops : LoadOps W L) (s : EngineState W) (name : String) :
    EngineState W × Bool :=
  match ops.createLoader name with
  | none => (s, false)
  | some loader =>
    ({ s with
        engine_world := ops.TR_GenWorld s.engine_world loader
        calls := s.calls ++ [LoadCall.notify_SYSNOTE_LOADED_PC_LEVEL,
          LoadCall.notify_SYSNOTE_ENGINE_VERSION,
          LoadCall.notify_SYSNOTE_NUM_ROOMS] }, true)

/-- The function `loadMap`: the engine state after the call and the value
returned. -/
def loadMap {W L : Type} (ops : LoadOps W L) (s : EngineState W) (name : String) :
    EngineState W × Int :=
  if !ops.is_regular_file name then
    ({ s with calls := s.calls ++ [LoadCall.warning_SYSWARN_FILE_NOT_FOUND name] }, 0)
  else
    let s1 : EngineState W :=
      { engine_world := ops.prepare (ops.empty s.engine_world)
        cameraCurrentRoom := none
        levelPath := name
        calls := s.calls ++ [LoadCall.drawLoadScreen 0, LoadCall.hideSkyBox,
          LoadCall.resetWorld, LoadCall.drawLoadScreen 50, LoadCall.lua_clean,
          LoadCall.audio_init, LoadCall.drawLoadScreen 100] }
    let loaded : EngineState W × Bool :=
      match getLevelFormat name with
      | LevelFormat.LEVEL_FORMAT_PC => loadPCLevel ops s1 name
      | _ => (s1, true)
    if loaded.2 = false then (loaded.1, 0)
    else
      ({ loaded.1 with
          engine_world := ops.Game_Prepare (ops.resetIdentity loaded.1.engine_world)
          calls := loaded.1.calls ++ [LoadCall.lua_prepare, LoadCall.setWorld,
            LoadCall.drawLoadScreen 1000, LoadCall.fadeStart, LoadCall.notifierStop] }, 1)

/-- Collaborators for the scenes: the world is its list of room ids, the only
level file is `data/tr1/LEVEL1.PHD`, and it holds the rooms 1, 2 and 3. -/
def sceneLoadOps : LoadOps (List Nat) (List Nat) :=
  { is_regular_file := fun name => name == "data/tr1/LEVEL1.PHD"
    empty := fun _ => []
    prepare := fun w => w
    createLoader := fun name => if name == "data/tr1/LEVEL1.PHD" then some [1, 2, 3] else none
    TR_GenWorld := fun w loader => w ++ loader
    resetIdentity := fun w => w
    Game_Prepare := fun w => w }

/-- An engine state with a level loaded: the rooms 7 and 8, the camera in room 7. -/
def sceneEngineState : EngineState (List Nat) :=
  { engine_world := [7, 8], cameraCurrentRoom := some 7, levelPath := "data/tr1/CUT1.PHD",
    calls := [] }

/-! ### Predicates used to state the symmetry of the pair filter -/

/-- The pair with proxy 0 and proxy 1 exchanged. -/
def swapPair (collisionPair : btBroadphasePair) : btBroadphasePair :=
  { m_pProxy0 := collisionPair.m_pProxy1, m_pProxy1 := collisionPair.m_pProxy0 }

/-- Whether `roomNearCallback` accepts the pair, that is, whether it invokes
`defaultNearCallback`. -/
def acceptsPair (w : World) (collisionPair : btBroadphasePair) : Bool :=
  !(roomNearCallback w collisionPair).isEmpty

/-! ### Level names and autoexec script names -/

/-- A `std::string`, as the sequence of its `char` elements. -/
abbrev StdString := List Char

/-- The constant `std::string::npos`, the largest value of `size_t`. -/
def npos : Nat := 2 ^ 64 - 1

/-- The highest index of `s` holding a character that satisfies `p`, if any. -/
def findLastIdx (p : Char → Bool) : StdString → Option Nat
  | [] => none
  | c :: cs =>
    match findLastIdx p cs with
    | some i => some (i + 1)
    | none => if p c then some 0 else none

/-- The member `std::string::find_last_of(chars)`: the highest index holding
one of the characters of `chars`, `npos` when there is none. -/
def find_last_of (s : StdString) (chars : List Char) : Nat :=
  match findLastIdx (fun c => chars.contains c) s with
  | some i => i
  | none => npos

/-- The member `std::string::substr(pos, count)`: `none` stands for the
`std::out_of_range` exception thrown when `pos` exceeds the size; otherwise
the characters from `pos` on, at most `count` of them (`count` is clipped at
the end of the string). -/
def substr (s : StdString) (pos count : Nat) : Option StdString :=
  if pos > s.length then none else some ((s.drop pos).take count)

/-- The function `getLevelName`.  Positions and lengths are `size_t` values:
`++start` and `ext - start` are computed modulo `2 ^ 64`.  The result `none`
stands for a failed `BOOST_ASSERT(ext != std::string::npos)` or an exception
thrown by `substr`. -/
def getLevelName (path : StdString) : Option StdString :=
  if path.isEmpty then some []
  else
    let ext := find_last_of path ['.']
    if ext = npos then none
    else
      let start := find_last_of path ['\\', '/']
      let start := if start = npos then 0 else (start + 1) % 2 ^ 64
      substr path start ((ext + 2 ^ 64 - start) % 2 ^ 64)

/-- The function `std::toupper` on a `char`, in the "C" locale: the letters
`a` to `z` are mapped to `A` to `Z`, every other character to itself. -/
def toupper (c : Char) : Char := c.toUpper

/-- The function `getAutoexecName`.  A game version is the value of its
`loader::Game` enumerator; the enumeration is declared outside the available
sources, so the values `TR2`, `TR3`, `TR4` and `TR5` are parameters.
`levelPath` is what `Gameflow_Manager.getLevelPath()` returns and `suffix` is
the argument for the second parameter of the source function.  The result is
`none` when `getLevelName` does not return. -/
def getAutoexecName (TR2 TR3 TR4 TR5 : Nat) (levelPath : StdString) (game_version : Nat)
    (suffix : StdString) : Option StdString :=
  match getLevelName levelPath with
  | none => none
  | some level_name =>
    let name := "scripts/autoexec/".toList
    let name :=
      if game_version < TR2 then name ++ "tr1/".toList
      else if game_version < TR3 then name ++ "tr2/".toList
      else if game_version < TR4 then name ++ "tr3/".toList
      else if game_version < TR5 then name ++ "tr4/".toList
      else name ++ "tr5/".toList
    let level_name := level_name.map toupper
    let name := name ++ level_name
    let name := name ++ suffix
    let name := name ++ ".lua".toList
    some name

/-- Recognises the path separators `/` and `\`. -/
def isSeparator (c : Char) : Bool := ['\\', '/'].contains c

/-- The directory of the autoexec scripts of a game version, in the words of
the specification: `tr1/` below `TR2`, `tr2/` from `TR2` up to but excluding
`TR3`, `tr3/` from `TR3` up to but excluding `TR4`, `tr4/` from `TR4` up to
but excluding `TR5`, and `tr5/` otherwise. -/
def autoexecDir (TR2 TR3 TR4 TR5 : Nat) (v : Nat) : StdString :=
  if v < TR2 then "tr1/".toList
  else if TR2 ≤ v ∧ v < TR3 then "tr2/".toList
  else if TR3 ≤ v ∧ v < TR4 then "tr3/".toList
  else if TR4 ≤ v ∧ v < TR5 then "tr4/".toList
  else "tr5/".toList

/-! ## Theorems -/

/-! ### The broad-phase pair filter -/

/-- C1: a pair whose colliders have different owning objects, both with a room,
such that `r0->isInNearRoomsList(*r1)` is false, is rejected: the callback
makes no dispatcher call at all, so `defaultNearCallback` is not invoked. -/
theorem roomNearCallback_rejects_far_rooms (w : World) (collisionPair : btBroadphasePair)
    (o0 o1 r0 r1 : Nat)
    (hc0 : collisionPair.m_pProxy0.m_clientObject.getUserPointer = some o0)
    (hc1 : collisionPair.m_pProxy1.m_clientObject.getUserPointer = some o1)
    (hdiff : o0 ≠ o1)
    (hr0 : (w.objects o0).getRoom = some r0)
    (hr1 : (w.objects o1).getRoom = some r1)
    (hfar : w.isInNearRoomsList r0 r1 = false) :
    roomNearCallback w collisionPair = [] := by
  have hne : o1 ≠ o0 := fun h => hdiff h.symm
  simp [roomNearCallback, roomOf, hc0, hc1, hr0, hr1, hfar, hne]

/-- Witness for C1: objects 0 and 2 of the scene sit in rooms 1 and 3, which
are neither near nor identical. -/
theorem roomNearCallback_rejects_far_rooms_witness :
    sceneWorld.isInNearRoomsList 1 3 = false ∧
    roomNearCallback sceneWorld (pairOf (collider (some 0) 0) (collider (some 2) 0)) = [] :=
  ⟨by decide,
   roomNearCallback_rejects_far_rooms sceneWorld
     (pairOf (collider (some 0) 0) (collider (some 2) 0)) 0 2 1 3
     rfl rfl (by decide) rfl rfl (by decide)⟩

/-- C2: when both colliders resolve to the same non-null owning object, the
pair is rejected if exactly one of the two sub-parts is static or kinematic
(no dispatcher call), and accepted if both are dynamic (`defaultNearCallback`
is invoked exactly once); the world, hence the room of the object, is
arbitrary. -/
theorem roomNearCallback_self_collision (w : World) (collisionPair : btBroadphasePair)
    (o : Nat)
    (hc0 : collisionPair.m_pProxy0.m_clientObject.getUserPointer = some o)
    (hc1 : collisionPair.m_pProxy1.m_clientObject.getUserPointer = some o) :
    (collisionPair.m_pProxy0.m_clientObject.isStaticOrKinematicObject ≠
        collisionPair.m_pProxy1.m_clientObject.isStaticOrKinematicObject →
      roomNearCallback w collisionPair = []) ∧
    (collisionPair.m_pProxy0.m_clientObject.isStaticOrKinematicObject = false ∧
        collisionPair.m_pProxy1.m_clientObject.isStaticOrKinematicObject = false →
      roomNearCallback w collisionPair =
        [DispatcherCall.defaultNearCallback collisionPair]) := by
  constructor
  · intro hmixed
    cases h0 : collisionPair.m_pProxy0.m_clientObject.isStaticOrKinematicObject <;>
      cases h1 : collisionPair.m_pProxy1.m_clientObject.isStaticOrKinematicObject <;>
      simp_all [roomNearCallback]
  · rintro ⟨h0, h1⟩
    simp [roomNearCallback, hc0, hc1, h0, h1]

/-- Witness for C2: two sub-parts of object 0, first static against dynamic,
then kinematic against dynamic, then dynamic against dynamic. -/
theorem roomNearCallback_self_collision_witness :
    roomNearCallback sceneWorld (pairOf (collider (some 0) 1) (collider (some 0) 0)) = [] ∧
    roomNearCallback sceneWorld (pairOf (collider (some 0) 0) (collider (some 0) 2)) = [] ∧
    roomNearCallback sceneWorld (pairOf (collider (some 0) 0) (collider (some 0) 4)) =
      [DispatcherCall.defaultNearCallback (pairOf (collider (some 0) 0) (collider (some 0) 4))] :=
  ⟨(roomNearCallback_self_collision sceneWorld
      (pairOf (collider (some 0) 1) (collider (some 0) 0)) 0 rfl rfl).1 (by decide),
   (roomNearCallback_self_collision sceneWorld
      (pairOf (collider (some 0) 0) (collider (some 0) 2)) 0 rfl rfl).1 (by decide),
   (roomNearCallback_self_collision sceneWorld
      (pairOf (collider (some 0) 0) (collider (some 0) 4)) 0 rfl rfl).2 ⟨by decide, by decide⟩⟩

/-- C3: when neither collider has a resolvable room and the two colliders
are not one and the same non-null owning object, the pair is accepted:
`defaultNearCallback` is invoked exactly once. -/
theorem roomNearCallback_accepts_roomless (w : World) (collisionPair : btBroadphasePair)
    (hr0 : roomOf w collisionPair.m_pProxy0.m_clientObject.getUserPointer = none)
    (hr1 : roomOf w collisionPair.m_pProxy1.m_clientObject.getUserPointer = none)
    (hnotself : ¬ ∃ o, collisionPair.m_pProxy0.m_clientObject.getUserPointer = some o ∧
        collisionPair.m_pProxy1.m_clientObject.getUserPointer = some o) :
    roomNearCallback w collisionPair = [DispatcherCall.defaultNearCallback collisionPair] := by
  have hguard : (collisionPair.m_pProxy1.m_clientObject.getUserPointer.isSome &&
      collisionPair.m_pProxy1.m_clientObject.getUserPointer ==
        collisionPair.m_pProxy0.m_clientObject.getUserPointer) = false := by
    cases h1 : collisionPair.m_pProxy1.m_clientObject.getUserPointer with
    | none => simp
    | some o1 =>
      cases h0 : collisionPair.m_pProxy0.m_clientObject.getUserPointer with
      | none => simp
      | some o0 =>
        have : o1 ≠ o0 := fun h => hnotself ⟨o0, h0, by rw [h1, h]⟩
        simp [this]
  simp [roomNearCallback, hguard, hr0, hr1]

/-- Witness for C3: a collider without owner against one owned by the
room-less object 3. -/
theorem roomNearCallback_accepts_roomless_witness :
    roomNearCallback sceneWorld (pairOf (collider none 0) (collider (some 3) 0)) =
      [DispatcherCall.defaultNearCallback (pairOf (collider none 0) (collider (some 3) 0))] :=
  roomNearCallback_accepts_roomless sceneWorld
    (pairOf (collider none 0) (collider (some 3) 0)) rfl rfl (by decide)

/-- C4: a pair whose colliders have different owning objects, both with a
room, is accepted (`defaultNearCallback` is invoked, exactly once) whenever
the two rooms are near or are the identical room. -/
theorem roomNearCallback_accepts_near_rooms (w : World) (collisionPair : btBroadphasePair)
    (o0 o1 r0 r1 : Nat)
    (hc0 : collisionPair.m_pProxy0.m_clientObject.getUserPointer = some o0)
    (hc1 : collisionPair.m_pProxy1.m_clientObject.getUserPointer = some o1)
    (hdiff : o0 ≠ o1)
    (hr0 : (w.objects o0).getRoom = some r0)
    (hr1 : (w.objects o1).getRoom = some r1)
    (hnear : w.areNear r0 r1 = true ∨ r0 = r1) :
    roomNearCallback w collisionPair = [DispatcherCall.defaultNearCallback collisionPair] := by
  have hne : o1 ≠ o0 := fun h => hdiff h.symm
  have hlist : w.isInNearRoomsList r0 r1 = true := by
    rcases hnear with h | h
    · simp [World.isInNearRoomsList, h]
    · simp [World.isInNearRoomsList, h]
  simp [roomNearCallback, roomOf, hc0, hc1, hr0, hr1, hlist, hne]

/-- Witness for C4: objects 0 and 1 sit in the near rooms 1 and 2; objects 0
and 4 both sit in room 1. -/
theorem roomNearCallback_accepts_near_rooms_witness :
    roomNearCallback sceneWorld (pairOf (collider (some 0) 0) (collider (some 1) 0)) =
      [DispatcherCall.defaultNearCallback (pairOf (collider (some 0) 0) (collider (some 1) 0))] ∧
    roomNearCallback sceneWorld (pairOf (collider (some 0) 0) (collider (some 4) 0)) =
      [DispatcherCall.defaultNearCallback (pairOf (collider (some 0) 0) (collider (some 4) 0))] :=
  ⟨roomNearCallback_accepts_near_rooms sceneWorld
      (pairOf (collider (some 0) 0) (collider (some 1) 0)) 0 1 1 2
      rfl rfl (by decide) rfl rfl (Or.inl rfl),
   roomNearCallback_accepts_near_rooms sceneWorld
      (pairOf (collider (some 0) 0) (collider (some 4) 0)) 0 4 1 1
      rfl rfl (by decide) rfl rfl (Or.inr rfl)⟩

/-- C5: a pair whose colliders have different owners, exactly one of which has
a resolvable room, is rejected: the callback returns without any dispatcher
call, in particular without invoking `defaultNearCallback`. -/
theorem roomNearCallback_rejects_one_roomless (w : World) (collisionPair : btBroadphasePair)
    (hdiff : collisionPair.m_pProxy0.m_clientObject.getUserPointer ≠
      collisionPair.m_pProxy1.m_clientObject.getUserPointer)
    (hone :
      ((roomOf w collisionPair.m_pProxy0.m_clientObject.getUserPointer).isSome = true ∧
        roomOf w collisionPair.m_pProxy1.m_clientObject.getUserPointer = none) ∨
      (roomOf w collisionPair.m_pProxy0.m_clientObject.getUserPointer = none ∧
        (roomOf w collisionPair.m_pProxy1.m_clientObject.getUserPointer).isSome = true)) :
    roomNearCallback w collisionPair = [] := by
  have hguard : (collisionPair.m_pProxy1.m_clientObject.getUserPointer.isSome &&
      collisionPair.m_pProxy1.m_clientObject.getUserPointer ==
        collisionPair.m_pProxy0.m_clientObject.getUserPointer) = false := by
    have : collisionPair.m_pProxy1.m_clientObject.getUserPointer ≠
        collisionPair.m_pProxy0.m_clientObject.getUserPointer := fun h => hdiff h.symm
    simp [this]
  rcases hone with ⟨h0, h1⟩ | ⟨h0, h1⟩
  · obtain ⟨r, hr⟩ := Option.isSome_iff_exists.mp h0
    simp [roomNearCallback, hguard, hr, h1]
  · obtain ⟨r, hr⟩ := Option.isSome_iff_exists.mp h1
    simp [roomNearCallback, hguard, hr, h0]

/-- Witness for C5: object 0 (room 1) against the room-less object 3, and a
collider without owner against object 1 (room 2). -/
theorem roomNearCallback_rejects_one_roomless_witness :
    roomNearCallback sceneWorld (pairOf (collider (some 0) 0) (collider (some 3) 0)) = [] ∧
    roomNearCallback sceneWorld (pairOf (collider none 0) (collider (some 1) 0)) = [] :=
  ⟨roomNearCallback_rejects_one_roomless sceneWorld
      (pairOf (collider (some 0) 0) (collider (some 3) 0)) (by decide) (Or.inl ⟨rfl, rfl⟩),
   roomNearCallback_rejects_one_roomless sceneWorld
      (pairOf (collider none 0) (collider (some 1) 0)) (by decide) (Or.inr ⟨rfl, rfl⟩)⟩

/-! ### The ray and sweep hit filters -/

/-- C6: a ray hit whose originator is in room `rA` and whose hit owner is in
room `rC`, with `rA->isInNearRoomsList(*rC)` false (the rooms are neither near
nor identical), is not recorded: whatever the base callback would do, the
filter returns 1.0 and leaves the callback, closest-hit state included, as it
was. -/
theorem rayFilter_rejects_far_room {σ : Type} (w : World)
    (baseAddSingleResult : σ → LocalRayResult → Bool → σ × ℚ)
    (cb : BtEngineClosestRayResultCallback σ) (rayResult : LocalRayResult)
    (normalInWorldSpace : Bool) (o0 o1 rA rC : Nat)
    (horig : cb.m_object = some o0)
    (hrA : (w.objects o0).getRoom = some rA)
    (hhit : rayResult.m_collisionObject.getUserPointer = some o1)
    (hrC : (w.objects o1).getRoom = some rC)
    (hfar : w.isInNearRoomsList rA rC = false) :
    cb.addSingleResult w baseAddSingleResult rayResult normalInWorldSpace = (cb, 1) := by
  unfold BtEngineClosestRayResultCallback.addSingleResult
  by_cases hskip : skipsHit w cb.m_object cb.m_skip_ghost
      rayResult.m_collisionObject.getUserPointer = true
  · simp [hskip]
  · simp [hskip, roomOf, horig, hhit, hrA, hrC, hfar]

/-- Witness for C6: a ray cast by object 0 (room 1) that hits a collider of
object 2 (room 3) at fraction 1/2 leaves the closest hit at 1. -/
theorem rayFilter_rejects_far_room_witness :
    sceneWorld.isInNearRoomsList 1 3 = false ∧
    BtEngineClosestRayResultCallback.addSingleResult sceneWorld recordRayHit
        { m_object := some 0, m_skip_ghost := true, base := (1 : ℚ) }
        { m_collisionObject := collider (some 2) 0, m_hitFraction := 1 / 2 } true =
      ({ m_object := some 0, m_skip_ghost := true, base := (1 : ℚ) }, 1) :=
  ⟨by decide,
   rayFilter_rejects_far_room sceneWorld recordRayHit
     { m_object := some 0, m_skip_ghost := true, base := (1 : ℚ) }
     { m_collisionObject := collider (some 2) 0, m_hitFraction := 1 / 2 } true 0 2 1 3
     rfl rfl rfl rfl (by decide)⟩

/-- C7: a ray or sweep hit for which the room of the originator or the room
of the hit owner is unresolvable, and whose owner is neither the originator
itself nor a ghost skipped by `m_skip_ghost`, is accepted: each filter returns
exactly what its base `addSingleResult` returns, with the base state updated
by that call. -/
theorem hitFilters_accept_unresolvable_room {σ τ : Type} (w : World)
    (baseRay : σ → LocalRayResult → Bool → σ × ℚ)
    (baseConvex : τ → LocalConvexResult → Bool → τ × ℚ)
    (m_object : ObjectPtr) (m_skip_ghost : Bool) (hitObject : btCollisionObject)
    (normalInWorldSpace : Bool)
    (hroom : roomOf w m_object = none ∨ roomOf w hitObject.getUserPointer = none)
    (hkeep : ∀ o, hitObject.getUserPointer = some o →
      some o ≠ m_object ∧
      ¬ (m_skip_ghost = true ∧ (w.objects o).getCollisionType = CollisionType.Ghost)) :
    (∀ (s : σ) (fraction : ℚ),
      BtEngineClosestRayResultCallback.addSingleResult w baseRay
          { m_object := m_object, m_skip_ghost := m_skip_ghost, base := s }
          { m_collisionObject := hitObject, m_hitFraction := fraction } normalInWorldSpace =
        ({ m_object := m_object, m_skip_ghost := m_skip_ghost,
           base := (baseRay s { m_collisionObject := hitObject, m_hitFraction := fraction }
             normalInWorldSpace).1 },
         (baseRay s { m_collisionObject := hitObject, m_hitFraction := fraction }
             normalInWorldSpace).2)) ∧
    (∀ (t : τ) (fraction : ℚ),
      BtEngineClosestConvexResultCallback.addSingleResult w baseConvex
          { m_object := m_object, m_skip_ghost := m_skip_ghost, base := t }
          { m_hitCollisionObject := hitObject, m_hitFraction := fraction } normalInWorldSpace =
        ({ m_object := m_object, m_skip_ghost := m_skip_ghost,
           base := (baseConvex t { m_hitCollisionObject := hitObject, m_hitFraction := fraction }
             normalInWorldSpace).1 },
         (baseConvex t { m_hitCollisionObject := hitObject, m_hitFraction := fraction }
             normalInWorldSpace).2)) := by
  have hskip : skipsHit w m_object m_skip_ghost hitObject.getUserPointer = false := by
    unfold skipsHit
    cases hc : hitObject.getUserPointer with
    | none => rfl
    | some o =>
      obtain ⟨hne, hghost⟩ := hkeep o hc
      cases hg : m_skip_ghost <;> simp_all
  have hnone : ((roomOf w m_object).isNone || (roomOf w hitObject.getUserPointer).isNone) = true := by
    rcases hroom with h | h <;> simp [h]
  constructor
  · intro s fraction
    simp [BtEngineClosestRayResultCallback.addSingleResult, hskip, hnone]
  · intro t fraction
    simp [BtEngineClosestConvexResultCallback.addSingleResult, hskip, hnone]

/-- Witness for C7: object 0 casts a ray and sweeps a shape against a collider
of the room-less object 3; both hits at fraction 1/4 become the closest hit. -/
theorem hitFilters_accept_unresolvable_room_witness :
    BtEngineClosestRayResultCallback.addSingleResult sceneWorld recordRayHit
        { m_object := some 0, m_skip_ghost := true, base := (1 : ℚ) }
        { m_collisionObject := collider (some 3) 0, m_hitFraction := 1 / 4 } false =
      ({ m_object := some 0, m_skip_ghost := true, base := (1 / 4 : ℚ) }, 1 / 4) ∧
    BtEngineClosestConvexResultCallback.addSingleResult sceneWorld recordConvexHit
        { m_object := some 0, m_skip_ghost := true, base := (1 : ℚ) }
        { m_hitCollisionObject := collider (some 3) 0, m_hitFraction := 1 / 4 } false =
      ({ m_object := some 0, m_skip_ghost := true, base := (1 / 4 : ℚ) }, 1 / 4) :=
  have h := hitFilters_accept_unresolvable_room sceneWorld recordRayHit recordConvexHit
    (some 0) true (collider (some 3) 0) false (Or.inr rfl)
    (by
      intro o ho
      have ho3 : o = 3 := by
        have : some 3 = some o := ho
        exact (Option.some.inj this).symm
      subst ho3
      exact ⟨by decide, by decide⟩)
  ⟨h.1 1 (1 / 4), h.2 1 (1 / 4)⟩

/-! ### The post-physics step hook -/

/-- The loop body leaves alone every object other than the owner of the
collision object it is handed. -/
theorem tickCollisionObject_other (f : Vec3 → RoomPtr → RoomPtr) (objects : ObjectHeap)
    (obj : btCollisionObject) (a : Nat) (hother : obj.getUserPointer ≠ some a) :
    tickCollisionObject f objects obj a = objects a := by
  cases hr : obj.isRigidBody with
  | false => simp [tickCollisionObject, btCollisionObject.upcast, hr]
  | true =>
    cases hs : obj.isStaticObject with
    | true => simp [tickCollisionObject, btCollisionObject.upcast, hr, hs]
    | false =>
      cases hm : obj.getMotionState with
      | none => simp [tickCollisionObject, btCollisionObject.upcast, hr, hs, hm]
      | some t =>
        cases hu : obj.getUserPointer with
        | none => simp [tickCollisionObject, btCollisionObject.upcast, hr, hs, hm, hu]
        | some object =>
          have hne : a ≠ object := by
            intro h
            exact hother (by rw [hu, h])
          cases hb : (objects object).isBulletObject with
          | false => simp [tickCollisionObject, btCollisionObject.upcast, hr, hs, hm, hu, hb]
          | true =>
            simp [tickCollisionObject, btCollisionObject.upcast, hr, hs, hm, hu, hb,
              Function.update, hne]

/-- The loop body leaves the whole heap alone when the collision object is not
a non-static rigid body with a motion state. -/
theorem tickCollisionObject_untracked (f : Vec3 → RoomPtr → RoomPtr) (objects : ObjectHeap)
    (obj : btCollisionObject) (huntracked : isTrackedBody obj = false) :
    tickCollisionObject f objects obj = objects := by
  cases hr : obj.isRigidBody with
  | false => simp [tickCollisionObject, btCollisionObject.upcast, hr]
  | true =>
    cases hs : obj.isStaticObject with
    | true => simp [tickCollisionObject, btCollisionObject.upcast, hr, hs]
    | false =>
      cases hm : obj.getMotionState with
      | none => simp [tickCollisionObject, btCollisionObject.upcast, hr, hs, hm]
      | some t => simp [isTrackedBody, hr, hs, hm] at huntracked

/-- The loop body, applied to a tracked body whose owner is a `BulletObject`,
stores in the owner the room found for the reported origin, with the current
room of the owner as hint. -/
theorem tickCollisionObject_tracked (f : Vec3 → RoomPtr → RoomPtr) (objects : ObjectHeap)
    (obj : btCollisionObject) (a : Nat) (worldTrans : btTransform)
    (hrigid : obj.isRigidBody = true) (hstatic : obj.isStaticObject = false)
    (hmotion : obj.getMotionState = some worldTrans) (howner : obj.getUserPointer = some a)
    (hbullet : (objects a).isBulletObject = true) :
    tickCollisionObject f objects obj =
      Function.update objects a ((objects a).setRoom (f worldTrans.getOrigin (objects a).getRoom)) := by
  simp [tickCollisionObject, btCollisionObject.upcast, hrigid, hstatic, hmotion, howner, hbullet]

/-- The remaining iterations of the loop leave an object alone when none of
the collision objects still to be visited is a tracked body owned by it. -/
theorem internalTickLoop_frame (f : Vec3 → RoomPtr → RoomPtr) (arr : List btCollisionObject)
    (a : Nat) :
    ∀ (k : Nat) (objects : ObjectHeap),
      (∀ j other, j < k → arr[j]? = some other → other.getUserPointer = some a →
        isTrackedBody other = false) →
      internalTickLoop f arr k objects a = objects a := by
  intro k
  induction k with
  | zero => intro objects _; rfl
  | succ k ih =>
    intro objects hrest
    have hrest' : ∀ j other, j < k → arr[j]? = some other → other.getUserPointer = some a →
        isTrackedBody other = false :=
      fun j other hj => hrest j other (Nat.lt_succ_of_lt hj)
    unfold internalTickLoop
    cases hk : arr[k]? with
    | none => exact ih objects hrest'
    | some obj =>
      show internalTickLoop f arr k (tickCollisionObject f objects obj) a = objects a
      rw [ih _ hrest']
      by_cases howner : obj.getUserPointer = some a
      · rw [tickCollisionObject_untracked f objects obj (hrest k obj (Nat.lt_succ_self k) hk howner)]
      · exact tickCollisionObject_other f objects obj a howner

/-- When exactly one tracked body is owned by the `BulletObject` at address
`a`, the loop replaces the room of that object by the room found for the
origin this body reports, with the room held before the loop as hint. -/
theorem internalTickLoop_single (f : Vec3 → RoomPtr → RoomPtr) (arr : List btCollisionObject)
    (a i : Nat) (obj : btCollisionObject) (worldTrans : btTransform)
    (hi : arr[i]? = some obj)
    (hrigid : obj.isRigidBody = true) (hstatic : obj.isStaticObject = false)
    (hmotion : obj.getMotionState = some worldTrans) (howner : obj.getUserPointer = some a) :
    ∀ (k : Nat) (objects : ObjectHeap), i < k →
      (objects a).isBulletObject = true →
      (∀ j other, j < k → j ≠ i → arr[j]? = some other → other.getUserPointer = some a →
        isTrackedBody other = false) →
      internalTickLoop f arr k objects a =
        (objects a).setRoom (f worldTrans.getOrigin (objects a).getRoom) := by
  intro k
  induction k with
  | zero => intro objects hik; exact absurd hik (Nat.not_lt_zero i)
  | succ k ih =>
    intro objects hik hbullet hunique
    have hunique' : ∀ j other, j < k → j ≠ i → arr[j]? = some other →
        other.getUserPointer = some a → isTrackedBody other = false :=
      fun j other hj => hunique j other (Nat.lt_succ_of_lt hj)
    unfold internalTickLoop
    rcases Nat.lt_succ_iff_lt_or_eq.mp hik with hlt | heq
    · -- the body is visited later; this iteration does not touch the owner
      cases hk : arr[k]? with
      | none => exact ih objects hlt hbullet hunique'
      | some other =>
        show internalTickLoop f arr k (tickCollisionObject f objects other) a = _
        have hki : k ≠ i := fun h => (Nat.lt_irrefl i) (h ▸ hlt)
        have hsame : tickCollisionObject f objects other a = objects a := by
          by_cases ho : other.getUserPointer = some a
          · rw [tickCollisionObject_untracked f objects other
              (hunique k other (Nat.lt_succ_self k) hki hk ho)]
          · exact tickCollisionObject_other f objects other a ho
        rw [ih (tickCollisionObject f objects other) hlt (by rw [hsame]; exact hbullet) hunique',
          hsame]
    · -- this iteration visits the body
      subst heq
      rw [hi]
      show internalTickLoop f arr i (tickCollisionObject f objects obj) a = _
      rw [internalTickLoop_frame f arr a i _
        (fun j other hj => hunique' j other hj (Nat.ne_of_lt hj))]
      rw [tickCollisionObject_tracked f objects obj a worldTrans hrigid hstatic hmotion howner
        hbullet]
      simp

/-- The index of an element the lookup finds lies inside the list. -/
theorem index_lt_of_lookup {α : Type} (l : List α) (i : Nat) (x : α)
    (h : l[i]? = some x) : i < l.length := by
  by_contra hge
  rw [List.getElem?_eq_none (Nat.le_of_not_lt hge)] at h
  cases h

/-- C9, as stated, fails: object 0 owns two tracked bodies, reporting the
origins `(50, 0, 0)` (room 1) and `(150, 0, 0)` (room 2). The loop visits the
second body first and the first body last, so after the hook the object is in
room 1, not in the room found for the origin of the second body. -/
theorem internalTickCallback_shared_owner_counterexample :
    [bodyAt (some 0) 0 50, bodyAt (some 0) 0 150][1]? = some (bodyAt (some 0) 0 150) ∧
    isTrackedBody (bodyAt (some 0) 0 150) = true ∧
    (bodyAt (some 0) 0 150).getUserPointer = some 0 ∧
    (sceneObjects 0).isBulletObject = true ∧
    roomByX { x := 150, y := 0, z := 0 } (sceneObjects 0).getRoom = some 2 ∧
    (internalTickCallback roomByX [bodyAt (some 0) 0 50, bodyAt (some 0) 0 150]
      sceneObjects 0).getRoom = some 1 ∧
    (internalTickCallback roomByX [bodyAt (some 0) 0 50, bodyAt (some 0) 0 150]
      sceneObjects 0).getRoom ≠ roomByX { x := 150, y := 0, z := 0 } (sceneObjects 0).getRoom := by
  decide

/-- C9, amended: for a non-static rigid body with a motion state whose user
pointer is a `BulletObject` owning no other such body, the room reference of
the owner after the hook equals `Room_FindPosCogerrence` applied to the origin
of the motion-state transform and the room the owner held before the hook. -/
theorem internalTickCallback_reresolves_room
    (Room_FindPosCogerrence : Vec3 → RoomPtr → RoomPtr)
    (collisionObjectArray : List btCollisionObject) (objects : ObjectHeap)
    (i a : Nat) (obj : btCollisionObject) (worldTrans : btTransform)
    (hi : collisionObjectArray[i]? = some obj)
    (hrigid : obj.isRigidBody = true) (hstatic : obj.isStaticObject = false)
    (hmotion : obj.getMotionState = some worldTrans) (howner : obj.getUserPointer = some a)
    (hbullet : (objects a).isBulletObject = true)
    (hunique : ∀ j other, j ≠ i → collisionObjectArray[j]? = some other →
      other.getUserPointer = some a → isTrackedBody other = false) :
    (internalTickCallback Room_FindPosCogerrence collisionObjectArray objects a).getRoom =
      Room_FindPosCogerrence worldTrans.getOrigin (objects a).getRoom := by
  unfold internalTickCallback
  rw [internalTickLoop_single Room_FindPosCogerrence collisionObjectArray a i obj worldTrans hi
    hrigid hstatic hmotion howner collisionObjectArray.length objects
    (index_lt_of_lookup collisionObjectArray i obj hi) hbullet
    (fun j other _ hji => hunique j other hji)]
  rfl

/-- Witness for C9, amended: object 0 moves from room 1 into room 2; the
array also holds a body of object 1 and a static collider of object 0. -/
theorem internalTickCallback_reresolves_room_witness :
    (internalTickCallback roomByX
      [bodyAt (some 0) 0 150, bodyAt (some 1) 0 50, bodyAt (some 0) 1 20]
      sceneObjects 0).getRoom = some 2 :=
  internalTickCallback_reresolves_room roomByX
    [bodyAt (some 0) 0 150, bodyAt (some 1) 0 50, bodyAt (some 0) 1 20] sceneObjects 0 0
    (bodyAt (some 0) 0 150) { m_origin := { x := 150, y := 0, z := 0 } }
    rfl rfl (by decide) rfl rfl rfl
    (by
      intro j other hj hlook howner
      rcases j with _ | _ | _ | j
      · exact absurd rfl hj
      · have hother : other = bodyAt (some 1) 0 50 := by simpa using hlook.symm
        subst hother
        exact absurd howner (by decide)
      · have hother : other = bodyAt (some 0) 1 20 := by simpa using hlook.symm
        subst hother
        decide
      · simp at hlook)

/-- C10: when the origin a body reports resolves, with the current room of
its owner as hint, to the room the owner is already in, the reconciliation
step for that body leaves the whole object heap unchanged, and running the
step any number of times gives the same heap as running it once. -/
theorem tickCollisionObject_idempotent_in_place
    (Room_FindPosCogerrence : Vec3 → RoomPtr → RoomPtr) (objects : ObjectHeap)
    (obj : btCollisionObject) (a : Nat) (worldTrans : btTransform)
    (hmotion : obj.getMotionState = some worldTrans) (howner : obj.getUserPointer = some a)
    (hsame : Room_FindPosCogerrence worldTrans.getOrigin (objects a).getRoom =
      (objects a).getRoom) :
    tickCollisionObject Room_FindPosCogerrence objects obj = objects ∧
    ∀ n : Nat,
      (fun heap => tickCollisionObject Room_FindPosCogerrence heap obj)^[n] objects =
        tickCollisionObject Room_FindPosCogerrence objects obj := by
  have hstep : tickCollisionObject Room_FindPosCogerrence objects obj = objects := by
    by_cases htracked : isTrackedBody obj = true
    · have hrigid : obj.isRigidBody = true := by
        simp [isTrackedBody] at htracked; exact htracked.1.1
      have hstatic : obj.isStaticObject = false := by
        simp [isTrackedBody] at htracked; exact htracked.1.2
      by_cases hbullet : (objects a).isBulletObject = true
      · rw [tickCollisionObject_tracked Room_FindPosCogerrence objects obj a worldTrans hrigid
          hstatic hmotion howner hbullet, hsame]
        exact Function.update_eq_self a objects
      · simp [tickCollisionObject, btCollisionObject.upcast, hrigid, hstatic, hmotion, howner,
          hbullet]
    · exact tickCollisionObject_untracked Room_FindPosCogerrence objects obj
        (by simpa using htracked)
  refine ⟨hstep, fun n => ?_⟩
  rw [hstep]
  induction n with
  | zero => rfl
  | succ n ih => rw [Function.iterate_succ_apply, hstep, ih]

/-- Witness for C10: object 0 is in room 1 and its body reports the origin
`(50, 0, 0)`, which lies in room 1. -/
theorem tickCollisionObject_idempotent_in_place_witness :
    roomByX { x := 50, y := 0, z := 0 } (sceneObjects 0).getRoom = (sceneObjects 0).getRoom ∧
    tickCollisionObject roomByX sceneObjects (bodyAt (some 0) 0 50) = sceneObjects ∧
    (fun heap => tickCollisionObject roomByX heap (bodyAt (some 0) 0 50))^[3] sceneObjects =
      tickCollisionObject roomByX sceneObjects (bodyAt (some 0) 0 50) :=
  have h := tickCollisionObject_idempotent_in_place roomByX sceneObjects (bodyAt (some 0) 0 50) 0
    { m_origin := { x := 50, y := 0, z := 0 } } rfl rfl (by decide)
  ⟨by decide, h.1, h.2 3⟩

/-! ### The pre-physics step hook and the pose snapshot -/

/-- C11, evaluated at a failing input: entered with a wall-clock frame time of
1/20 s and called with the fixed step 1/60 s, the hook hands 1/20 s to
`doTasks`, which is not the fixed step duration. -/
theorem internalPreTickCallback_doTasks_gets_wall_clock :
    (internalPreTickCallback id sceneEntityWorld (1 / 20) (1 / 60)).2.head? =
      some (PreTickCall.doTasks (1 / 20)) ∧
    PreTickCall.doTasks (1 / 20) ≠ PreTickCall.doTasks (id (1 / 60 : ℚ)) := by
  refine ⟨rfl, ?_⟩
  intro h
  have h2 : (1 / 20 : ℚ) = 1 / 60 := by
    injection h
  norm_num at h2

/-- The duration handed to `doTasks` is always the value `engine_frame_time`
had on entry, whatever the time step. -/
theorem internalPreTickCallback_doTasks_argument (fromSeconds : ℚ → Duration)
    (engine_world : EntityWorld) (engine_frame_time : Duration) (timeStep : ℚ) :
    (internalPreTickCallback fromSeconds engine_world engine_frame_time timeStep).2.head? =
      some (PreTickCall.doTasks engine_frame_time) := rfl

/-- Filtering the `frame` calls out of a run of `frame` calls keeps them all. -/
theorem filter_isFrame_map_frame (d : Duration) (l : List Nat) :
    (l.map (fun e => PreTickCall.frame e d)).filter PreTickCall.isFrame =
      l.map (fun e => PreTickCall.frame e d) := by
  induction l with
  | nil => rfl
  | cons e rest ih => simp [List.filter, PreTickCall.isFrame, ih]

/-- The calls of the pre-tick hook, split into the three leading calls, the
`frame` calls and the final snapshot call. -/
theorem internalPreTickCallback_calls (fromSeconds : ℚ → Duration) (engine_world : EntityWorld)
    (engine_frame_time : Duration) (timeStep : ℚ) :
    (internalPreTickCallback fromSeconds engine_world engine_frame_time timeStep).2 =
      ([PreTickCall.doTasks engine_frame_time, PreTickCall.Game_UpdateAI,
          PreTickCall.updateAudio] ++
        (frameRecipients engine_world).map
          (fun e => PreTickCall.frame e (fromSeconds timeStep))) ++
      [PreTickCall.storeEntityLerpTransforms] := by
  cases hc : engine_world.character <;>
    simp [internalPreTickCallback, frameRecipients, hc, List.map_map, Function.comp_def]

/-- C12: in every run of the pre-tick hook the `frame` calls are exactly one
call per recipient (the character, when present, then each entry of the
entity tree), each with the fixed step duration; the call of
`storeEntityLerpTransforms` comes after all of them, is the last call of the
hook and occurs once; and when the recipients are pairwise distinct objects,
each of them receives `frame` with the fixed step exactly once. -/
theorem internalPreTickCallback_frames_then_snapshot (fromSeconds : ℚ → Duration)
    (engine_world : EntityWorld) (engine_frame_time : Duration) (timeStep : ℚ) :
    ((internalPreTickCallback fromSeconds engine_world engine_frame_time timeStep).2.filter
        PreTickCall.isFrame =
      (frameRecipients engine_world).map
        (fun e => PreTickCall.frame e (fromSeconds timeStep))) ∧
    (∃ before,
      (internalPreTickCallback fromSeconds engine_world engine_frame_time timeStep).2 =
        before ++ [PreTickCall.storeEntityLerpTransforms] ∧
      PreTickCall.storeEntityLerpTransforms ∉ before ∧
      before.filter PreTickCall.isFrame =
        (internalPreTickCallback fromSeconds engine_world engine_frame_time timeStep).2.filter
          PreTickCall.isFrame) ∧
    ((frameRecipients engine_world).Nodup →
      ∀ e ∈ frameRecipients engine_world, ∀ d : Duration,
        (internalPreTickCallback fromSeconds engine_world engine_frame_time timeStep).2.count
            (PreTickCall.frame e d) =
          if d = fromSeconds timeStep then 1 else 0) := by
  have hfilter :
      (internalPreTickCallback fromSeconds engine_world engine_frame_time timeStep).2.filter
          PreTickCall.isFrame =
        (frameRecipients engine_world).map
          (fun e => PreTickCall.frame e (fromSeconds timeStep)) := by
    rw [internalPreTickCallback_calls]
    simp [List.filter_append, filter_isFrame_map_frame, List.filter, PreTickCall.isFrame]
  refine ⟨hfilter, ?_, ?_⟩
  · refine ⟨[PreTickCall.doTasks engine_frame_time, PreTickCall.Game_UpdateAI,
        PreTickCall.updateAudio] ++
      (frameRecipients engine_world).map
        (fun e => PreTickCall.frame e (fromSeconds timeStep)),
      internalPreTickCallback_calls fromSeconds engine_world engine_frame_time timeStep, ?_, ?_⟩
    · simp
    · rw [hfilter]
      simp [List.filter_append, filter_isFrame_map_frame, List.filter, PreTickCall.isFrame]
  · intro hnodup e he d
    have hcount :
        (internalPreTickCallback fromSeconds engine_world engine_frame_time timeStep).2.count
            (PreTickCall.frame e d) =
          ((frameRecipients engine_world).map
            (fun e => PreTickCall.frame e (fromSeconds timeStep))).count
              (PreTickCall.frame e d) := by
      rw [← hfilter, List.count_filter]
      rfl
    rw [hcount]
    by_cases hd : d = fromSeconds timeStep
    · subst hd
      have hinj : Function.Injective (fun e : Nat => PreTickCall.frame e (fromSeconds timeStep)) := by
        intro a b h
        simpa using h
      have hmap := List.count_map_of_injective (frameRecipients engine_world)
        (fun e : Nat => PreTickCall.frame e (fromSeconds timeStep)) hinj e
      rw [if_pos rfl]
      exact hmap.trans (List.count_eq_one_of_mem hnodup he)
    · rw [if_neg hd]
      apply List.count_eq_zero_of_not_mem
      intro hmem
      obtain ⟨x, _, hx⟩ := List.mem_map.mp hmem
      injection hx with _ hd2
      exact hd hd2.symm

/-- Witness for C12: with a character and two entities, run at a frame time
of 1/20 s with the fixed step 1/60 s, each of the three receives exactly one
`frame` call with 1/60 s. -/
theorem internalPreTickCallback_frames_then_snapshot_witness :
    (frameRecipients sceneEntityWorld).Nodup ∧
    (internalPreTickCallback id sceneEntityWorld (1 / 20) (1 / 60)).2.filter PreTickCall.isFrame =
      [PreTickCall.frame 0 (1 / 60), PreTickCall.frame 10 (1 / 60),
        PreTickCall.frame 11 (1 / 60)] ∧
    (internalPreTickCallback id sceneEntityWorld (1 / 20) (1 / 60)).2.count
      (PreTickCall.frame 10 (1 / 60)) = 1 :=
  have h := internalPreTickCallback_frames_then_snapshot id sceneEntityWorld (1 / 20) (1 / 60)
  ⟨by decide, h.1,
   by
    have h10 := h.2.2 (by decide) 10 (by decide) (1 / 60)
    simpa using h10⟩

/-- C13, evaluated at a failing input: the character of the scene is disabled
(and not dynamic), yet `storeEntityLerpTransforms` makes the three pose calls
on it; in the entity tree the enabled entity 10 is posed and the dynamic
entity 11 is not. -/
theorem storeEntityLerpTransforms_poses_disabled_character :
    (sceneEntities 0).m_enabled = false ∧
    storeEntityLerpTransforms 0x40 sceneEntities sceneEntityWorld =
      [PoseCall.updatePose 0, PoseCall.updateRigidBody 0 false, PoseCall.ghostUpdate 0,
       PoseCall.updatePose 10, PoseCall.updateRigidBody 10 false, PoseCall.ghostUpdate 10] := by
  decide

/-- The loop over the entity tree does test `m_enabled`: a disabled entity of
the tree contributes no call, whatever its flags. -/
theorem storeEntityTreeLerpTransforms_skips_disabled (ENTITY_TYPE_DYNAMIC : Nat)
    (entities : Nat → Entity) (entityPair : Nat × Nat) (rest : List (Nat × Nat))
    (hdisabled : (entities entityPair.2).m_enabled = false) :
    storeEntityTreeLerpTransforms ENTITY_TYPE_DYNAMIC entities (entityPair :: rest) =
      storeEntityTreeLerpTransforms ENTITY_TYPE_DYNAMIC entities rest := by
  simp [storeEntityTreeLerpTransforms, hdisabled]

/-- The character branch tests the dynamic flag only: whenever the flag is
clear the three pose calls are made on the character first, enabled or not. -/
theorem storeEntityLerpTransforms_character_ignores_enabled (ENTITY_TYPE_DYNAMIC : Nat)
    (entities : Nat → Entity) (character : Nat) (tree : List (Nat × Nat))
    (hflag : (entities character).m_typeFlags &&& ENTITY_TYPE_DYNAMIC = 0) :
    storeEntityLerpTransforms ENTITY_TYPE_DYNAMIC entities
        { character := some character, entity_tree := tree } =
      poseCalls character ++ storeEntityTreeLerpTransforms ENTITY_TYPE_DYNAMIC entities tree := by
  simp [storeEntityLerpTransforms, hflag]

/-! ### The fixed-step simulation driver -/

/-- The stepping loop stops with less than one step accumulated unless it ran
out of budget. -/
theorem steppingLoop_stops (fixedStep : ℚ) :
    ∀ (budget : Nat) (clock : SimulationClock),
      (steppingLoop fixedStep budget clock).accumulator < fixedStep ∨
      (steppingLoop fixedStep budget clock).steps = clock.steps + budget := by
  intro budget
  induction budget with
  | zero => intro clock; right; rfl
  | succ budget ih =>
    intro clock
    unfold steppingLoop
    by_cases hle : fixedStep ≤ clock.accumulator
    · rw [if_pos hle]
      rcases ih { accumulator := clock.accumulator - fixedStep
                  simulated := clock.simulated + fixedStep
                  steps := clock.steps + 1 } with h | h
      · left; exact h
      · right; rw [h]; simp only; omega
    · rw [if_neg hle]
      left; exact lt_of_not_le hle

/-- With at least `budget` whole steps accumulated, the stepping loop takes
exactly `budget` steps. -/
theorem steppingLoop_full (fixedStep : ℚ) (hstep : 0 < fixedStep) :
    ∀ (budget : Nat) (clock : SimulationClock),
      (budget : ℚ) * fixedStep ≤ clock.accumulator →
      steppingLoop fixedStep budget clock =
        { accumulator := clock.accumulator - budget * fixedStep
          simulated := clock.simulated + budget * fixedStep
          steps := clock.steps + budget } := by
  intro budget
  induction budget with
  | zero => intro clock _; simp [steppingLoop]
  | succ budget ih =>
    intro clock hacc
    push_cast at hacc
    have hb : (0 : ℚ) ≤ (budget : ℚ) * fixedStep :=
      mul_nonneg (Nat.cast_nonneg budget) (le_of_lt hstep)
    have hle : fixedStep ≤ clock.accumulator := by linarith
    unfold steppingLoop
    rw [if_pos hle, ih _ (by simp only; linarith)]
    simp only [SimulationClock.mk.injEq]
    refine ⟨?_, ?_, ?_⟩
    · push_cast; ring
    · push_cast; ring
    · omega

/-- The fixed step is positive. -/
theorem GAME_LOGIC_REFRESH_INTERVAL_pos : 0 < GAME_LOGIC_REFRESH_INTERVAL := by
  norm_num [GAME_LOGIC_REFRESH_INTERVAL]

/-- C15: when the time accumulated in a frame holds more than
`MAX_SIM_SUBSTEPS` fixed steps, exactly `MAX_SIM_SUBSTEPS` logic steps are
executed in that frame and the excess is discarded: the accumulator is empty
after the frame, so it does not exceed one fixed step. -/
theorem Game_Frame_caps_steps (clock : SimulationClock) (time : ℚ)
    (hover : ((MAX_SIM_SUBSTEPS : ℚ) + 1) * GAME_LOGIC_REFRESH_INTERVAL ≤
      clock.accumulator + time) :
    (Game_Frame clock time).steps = clock.steps + MAX_SIM_SUBSTEPS ∧
    (Game_Frame clock time).simulated =
      clock.simulated + MAX_SIM_SUBSTEPS * GAME_LOGIC_REFRESH_INTERVAL ∧
    (Game_Frame clock time).accumulator = 0 ∧
    (Game_Frame clock time).accumulator ≤ GAME_LOGIC_REFRESH_INTERVAL := by
  have hstep := GAME_LOGIC_REFRESH_INTERVAL_pos
  have hfull := steppingLoop_full GAME_LOGIC_REFRESH_INTERVAL hstep MAX_SIM_SUBSTEPS
    { clock with accumulator := clock.accumulator + time } (by simp only; linarith)
  have hrest : GAME_LOGIC_REFRESH_INTERVAL ≤
      clock.accumulator + time - MAX_SIM_SUBSTEPS * GAME_LOGIC_REFRESH_INTERVAL := by linarith
  unfold Game_Frame driverFrame
  rw [hfull]
  simp only [hrest, if_true]
  exact ⟨trivial, trivial, trivial, le_of_lt hstep⟩

/-- Witness for C15: a stalled frame of half a second (30 fixed steps) on an
empty accumulator runs 6 steps and leaves nothing accumulated. -/
theorem Game_Frame_caps_steps_witness :
    ((MAX_SIM_SUBSTEPS : ℚ) + 1) * GAME_LOGIC_REFRESH_INTERVAL ≤
      SimulationClock.start.accumulator + 1 / 2 ∧
    (Game_Frame SimulationClock.start (1 / 2)).steps = 6 ∧
    (Game_Frame SimulationClock.start (1 / 2)).accumulator = 0 :=
  have hover : ((MAX_SIM_SUBSTEPS : ℚ) + 1) * GAME_LOGIC_REFRESH_INTERVAL ≤
      SimulationClock.start.accumulator + 1 / 2 := by
    norm_num [MAX_SIM_SUBSTEPS, GAME_LOGIC_REFRESH_INTERVAL, SimulationClock.start]
  have h := Game_Frame_caps_steps SimulationClock.start (1 / 2) hover
  ⟨hover, by simpa [SimulationClock.start, MAX_SIM_SUBSTEPS] using h.1, h.2.2.1⟩

/-! ### Console commands and level loading -/

/-- C16: for a command line whose first token is non-empty and not a built-in
command, when the script engine raises a runtime error or a load error on it,
`execCmd` ends within its first iteration by returning 0: the error does not
leave the function, the command line is echoed as an event line and the
message of the error follows as a warning line. -/
theorem execCmd_reports_script_error (parse_token : String → Option String × String)
    (doString : String → ScriptOutcome) (ch what : String) (fuel : Nat)
    (hnonempty : (parse_token ch).2 ≠ "")
    (hnotbuiltin : (parse_token ch).2 ∉ builtinCommands)
    (herror : doString ch = ScriptOutcome.runtimeError what ∨
      doString ch = ScriptOutcome.loadError what) :
    execCmd parse_token doString (some ch) (fuel + 1) =
      ([ConsoleCall.addLine ch FontStyle.ConsoleEvent,
          ConsoleCall.addLine what FontStyle.ConsoleWarning],
        some (CmdResult.returned 0)) := by
  have hhelp : (parse_token ch).2 ≠ "help" := by
    intro h; exact hnotbuiltin (by rw [h]; simp [builtinCommands])
  have hexit : (parse_token ch).2 ≠ "exit" := by
    intro h; exact hnotbuiltin (by rw [h]; simp [builtinCommands])
  have hone : (parse_token ch).2 ∉ commandsReturningOne := by
    intro h; exact hnotbuiltin (by simp [builtinCommands, h])
  rcases herror with h | h <;>
    simp [execCmd, execCmdLoop, hhelp, hexit, hone, hnonempty, h]

/-- Witness for C16: `setgravity 5` raises a runtime error and `(1` a load
error; both are echoed, reported as a warning and answered with 0. -/
theorem execCmd_reports_script_error_witness :
    execCmd sceneParseToken sceneDoString (some "setgravity 5") 1 =
      ([ConsoleCall.addLine "setgravity 5" FontStyle.ConsoleEvent,
          ConsoleCall.addLine "attempt to call a nil value" FontStyle.ConsoleWarning],
        some (CmdResult.returned 0)) ∧
    execCmd sceneParseToken sceneDoString (some "(1") 1 =
      ([ConsoleCall.addLine "(1" FontStyle.ConsoleEvent,
          ConsoleCall.addLine "unexpected symbol" FontStyle.ConsoleWarning],
        some (CmdResult.returned 0)) :=
  ⟨execCmd_reports_script_error sceneParseToken sceneDoString "setgravity 5"
      "attempt to call a nil value" 0 (by decide) (by decide) (Or.inl (by decide)),
   execCmd_reports_script_error sceneParseToken sceneDoString "(1"
      "unexpected symbol" 0 (by decide) (by decide) (Or.inr (by decide))⟩

/-- C17: for a path that is not an existing regular file, `loadMap` issues the
file-not-found warning for that path and nothing else, returns 0, and leaves
the world, the current room of the camera and the gameflow level path as they
were. -/
theorem loadMap_missing_file {W L : Type} (ops : LoadOps W L) (s : EngineState W)
    (name : String) (hmissing : ops.is_regular_file name = false) :
    (loadMap ops s name).2 = 0 ∧
    (loadMap ops s name).1.calls = s.calls ++ [LoadCall.warning_SYSWARN_FILE_NOT_FOUND name] ∧
    (loadMap ops s name).1.engine_world = s.engine_world ∧
    (loadMap ops s name).1.cameraCurrentRoom = s.cameraCurrentRoom ∧
    (loadMap ops s name).1.levelPath = s.levelPath := by
  simp [loadMap, hmissing]

/-- Witness for C17: loading `data/tr9/NONE.PHD`, which does not exist, keeps
the two rooms, the camera room and the level path of the scene. -/
theorem loadMap_missing_file_witness :
    sceneLoadOps.is_regular_file "data/tr9/NONE.PHD" = false ∧
    (loadMap sceneLoadOps sceneEngineState "data/tr9/NONE.PHD").2 = 0 ∧
    (loadMap sceneLoadOps sceneEngineState "data/tr9/NONE.PHD").1.calls =
      [LoadCall.warning_SYSWARN_FILE_NOT_FOUND "data/tr9/NONE.PHD"] ∧
    (loadMap sceneLoadOps sceneEngineState "data/tr9/NONE.PHD").1.engine_world = [7, 8] ∧
    (loadMap sceneLoadOps sceneEngineState "data/tr9/NONE.PHD").1.cameraCurrentRoom = some 7 ∧
    (loadMap sceneLoadOps sceneEngineState "data/tr9/NONE.PHD").1.levelPath =
      "data/tr1/CUT1.PHD" :=
  ⟨by decide, loadMap_missing_file sceneLoadOps sceneEngineState "data/tr9/NONE.PHD" (by decide)⟩

/-! ### Symmetry of the pair filter, agreement of the hit filters -/

/-- The self-collision guard `c1 && c1 == c0` does not depend on the order of
the two owners. -/
theorem selfGuard_comm (c0 c1 : ObjectPtr) :
    (c1.isSome && c1 == c0) = (c0.isSome && c0 == c1) := by
  cases c0 <;> cases c1 <;> simp [eq_comm]

/-- C18: if `isInNearRoomsList` is symmetric, swapping proxy 0 and proxy 1
does not change whether `roomNearCallback` accepts the pair, nor how many
dispatcher calls it makes. -/
theorem roomNearCallback_symmetric (w : World) (collisionPair : btBroadphasePair)
    (hsymm : ∀ r s, w.isInNearRoomsList r s = w.isInNearRoomsList s r) :
    acceptsPair w (swapPair collisionPair) = acceptsPair w collisionPair ∧
    (roomNearCallback w (swapPair collisionPair)).length =
      (roomNearCallback w collisionPair).length := by
  have hguard := selfGuard_comm collisionPair.m_pProxy0.m_clientObject.getUserPointer
    collisionPair.m_pProxy1.m_clientObject.getUserPointer
  unfold acceptsPair roomNearCallback swapPair
  simp only
  rw [← hguard]
  cases hg : (collisionPair.m_pProxy1.m_clientObject.getUserPointer.isSome &&
      collisionPair.m_pProxy1.m_clientObject.getUserPointer ==
        collisionPair.m_pProxy0.m_clientObject.getUserPointer)
  · cases h0 : roomOf w collisionPair.m_pProxy0.m_clientObject.getUserPointer <;>
      cases h1 : roomOf w collisionPair.m_pProxy1.m_clientObject.getUserPointer
    · simp
    · simp
    · simp
    · rename_i r0 r1
      cases hn : w.isInNearRoomsList r0 r1 <;> simp [hn, (hsymm r1 r0).trans hn]
  · cases hs0 : collisionPair.m_pProxy0.m_clientObject.isStaticOrKinematicObject <;>
      cases hs1 : collisionPair.m_pProxy1.m_clientObject.isStaticOrKinematicObject <;>
      simp

/-- The near relation of the scene is symmetric. -/
theorem sceneWorld_near_symmetric :
    ∀ r s, sceneWorld.isInNearRoomsList r s = sceneWorld.isInNearRoomsList s r := by
  intro r s
  rw [Bool.eq_iff_iff]
  simp only [World.isInNearRoomsList, sceneWorld, Bool.or_eq_true, Bool.and_eq_true,
    beq_iff_eq]
  omega

/-- Witness for C18: objects 0 (room 1) and 1 (room 2) are accepted in either
order; objects 0 (room 1) and 2 (room 3) are rejected in either order. -/
theorem roomNearCallback_symmetric_witness :
    acceptsPair sceneWorld (swapPair (pairOf (collider (some 0) 0) (collider (some 1) 0))) =
      acceptsPair sceneWorld (pairOf (collider (some 0) 0) (collider (some 1) 0)) ∧
    acceptsPair sceneWorld (swapPair (pairOf (collider (some 0) 0) (collider (some 2) 0))) =
      acceptsPair sceneWorld (pairOf (collider (some 0) 0) (collider (some 2) 0)) :=
  ⟨(roomNearCallback_symmetric sceneWorld (pairOf (collider (some 0) 0) (collider (some 1) 0))
      sceneWorld_near_symmetric).1,
   (roomNearCallback_symmetric sceneWorld (pairOf (collider (some 0) 0) (collider (some 2) 0))
      sceneWorld_near_symmetric).1⟩

/-- C19: for every originator, skip-ghost flag and hit collision object there
is one decision shared by the two filters: when it is to delegate, the ray
filter and the sweep filter each return the result of their base
`addSingleResult` (with the base state it leaves); otherwise both return 1.0
and keep their state.  This holds for all base callbacks, base states and hit
fractions. -/
theorem rayFilter_convexFilter_agree (w : World) (m_object : ObjectPtr) (m_skip_ghost : Bool)
    (hitObject : btCollisionObject) (normalInWorldSpace : Bool) :
    ∃ delegates : Bool,
      (∀ (σ : Type) (baseRay : σ → LocalRayResult → Bool → σ × ℚ) (s : σ) (fraction : ℚ),
        BtEngineClosestRayResultCallback.addSingleResult w baseRay
            { m_object := m_object, m_skip_ghost := m_skip_ghost, base := s }
            { m_collisionObject := hitObject, m_hitFraction := fraction } normalInWorldSpace =
          if delegates then
            ({ m_object := m_object, m_skip_ghost := m_skip_ghost,
               base := (baseRay s { m_collisionObject := hitObject, m_hitFraction := fraction }
                 normalInWorldSpace).1 },
             (baseRay s { m_collisionObject := hitObject, m_hitFraction := fraction }
                 normalInWorldSpace).2)
          else ({ m_object := m_object, m_skip_ghost := m_skip_ghost, base := s }, 1)) ∧
      (∀ (τ : Type) (baseConvex : τ → LocalConvexResult → Bool → τ × ℚ) (t : τ) (fraction : ℚ),
        BtEngineClosestConvexResultCallback.addSingleResult w baseConvex
            { m_object := m_object, m_skip_ghost := m_skip_ghost, base := t }
            { m_hitCollisionObject := hitObject, m_hitFraction := fraction }
            normalInWorldSpace =
          if delegates then
            ({ m_object := m_object, m_skip_ghost := m_skip_ghost,
               base := (baseConvex t
                 { m_hitCollisionObject := hitObject, m_hitFraction := fraction }
                 normalInWorldSpace).1 },
             (baseConvex t { m_hitCollisionObject := hitObject, m_hitFraction := fraction }
                 normalInWorldSpace).2)
          else ({ m_object := m_object, m_skip_ghost := m_skip_ghost, base := t }, 1)) := by
  cases hskip : skipsHit w m_object m_skip_ghost hitObject.getUserPointer with
  | true =>
    refine ⟨false, ?_, ?_⟩
    · intro σ baseRay s fraction
      simp [BtEngineClosestRayResultCallback.addSingleResult, hskip]
    · intro τ baseConvex t fraction
      simp [BtEngineClosestConvexResultCallback.addSingleResult, hskip]
  | false =>
    cases h0 : roomOf w m_object with
    | none =>
      refine ⟨true, ?_, ?_⟩
      · intro σ baseRay s fraction
        simp [BtEngineClosestRayResultCallback.addSingleResult, hskip, h0]
      · intro τ baseConvex t fraction
        simp [BtEngineClosestConvexResultCallback.addSingleResult, hskip, h0]
    | some r0 =>
      cases h1 : roomOf w hitObject.getUserPointer with
      | none =>
        refine ⟨true, ?_, ?_⟩
        · intro σ baseRay s fraction
          simp [BtEngineClosestRayResultCallback.addSingleResult, hskip, h0, h1]
        · intro τ baseConvex t fraction
          simp [BtEngineClosestConvexResultCallback.addSingleResult, hskip, h0, h1]
      | some r1 =>
        cases hn : w.isInNearRoomsList r0 r1 with
        | true =>
          refine ⟨true, ?_, ?_⟩
          · intro σ baseRay s fraction
            simp [BtEngineClosestRayResultCallback.addSingleResult, hskip, h0, h1, hn]
          · intro τ baseConvex t fraction
            simp [BtEngineClosestConvexResultCallback.addSingleResult, hskip, h0, h1, hn]
        | false =>
          refine ⟨false, ?_, ?_⟩
          · intro σ baseRay s fraction
            simp [BtEngineClosestRayResultCallback.addSingleResult, hskip, h0, h1, hn]
          · intro τ baseConvex t fraction
            simp [BtEngineClosestConvexResultCallback.addSingleResult, hskip, h0, h1, hn]

/-- C20: a hit whose owner is the non-null originator, or whose owner is a
ghost while `m_skip_ghost` is set, is never recorded: for every world,
whatever the rooms of the originator and of the owner are (resolvable or
not), the ray filter and the sweep filter return 1.0 and keep their state,
without calling the base callback. -/
theorem hitFilters_skip_originator_and_ghosts (w : World) (m_object : ObjectPtr)
    (m_skip_ghost : Bool) (hitObject : btCollisionObject) (normalInWorldSpace : Bool) (o : Nat)
    (howner : hitObject.getUserPointer = some o)
    (hskipped : m_object = some o ∨
      (m_skip_ghost = true ∧ (w.objects o).getCollisionType = CollisionType.Ghost)) :
    (∀ (σ : Type) (baseRay : σ → LocalRayResult → Bool → σ × ℚ) (s : σ) (fraction : ℚ),
      BtEngineClosestRayResultCallback.addSingleResult w baseRay
          { m_object := m_object, m_skip_ghost := m_skip_ghost, base := s }
          { m_collisionObject := hitObject, m_hitFraction := fraction } normalInWorldSpace =
        ({ m_object := m_object, m_skip_ghost := m_skip_ghost, base := s }, 1)) ∧
    (∀ (τ : Type) (baseConvex : τ → LocalConvexResult → Bool → τ × ℚ) (t : τ) (fraction : ℚ),
      BtEngineClosestConvexResultCallback.addSingleResult w baseConvex
          { m_object := m_object, m_skip_ghost := m_skip_ghost, base := t }
          { m_hitCollisionObject := hitObject, m_hitFraction := fraction } normalInWorldSpace =
        ({ m_object := m_object, m_skip_ghost := m_skip_ghost, base := t }, 1)) := by
  have hskip : skipsHit w m_object m_skip_ghost hitObject.getUserPointer = true := by
    rw [howner]
    rcases hskipped with h | ⟨hs, hg⟩
    · simp [skipsHit, h]
    · simp [skipsHit, hs, hg]
  constructor
  · intro σ baseRay s fraction
    simp [BtEngineClosestRayResultCallback.addSingleResult, hskip]
  · intro τ baseConvex t fraction
    simp [BtEngineClosestConvexResultCallback.addSingleResult, hskip]

/-- Witness for C20: the room-less object 3 casts a ray that hits its own
collider, and a sweep without originator and with `m_skip_ghost` set hits the
ghost at address 4; both hits at fraction 1/4 leave the closest hit at 1,
although a room is unresolvable in both queries. -/
theorem hitFilters_skip_originator_and_ghosts_witness :
    roomOf sceneWorld (some 3) = none ∧
    BtEngineClosestRayResultCallback.addSingleResult sceneWorld recordRayHit
        { m_object := some 3, m_skip_ghost := false, base := (1 : ℚ) }
        { m_collisionObject := collider (some 3) 0, m_hitFraction := 1 / 4 } true =
      ({ m_object := some 3, m_skip_ghost := false, base := (1 : ℚ) }, 1) ∧
    BtEngineClosestConvexResultCallback.addSingleResult sceneWorld recordConvexHit
        { m_object := none, m_skip_ghost := true, base := (1 : ℚ) }
        { m_hitCollisionObject := collider (some 4) 0, m_hitFraction := 1 / 4 } true =
      ({ m_object := none, m_skip_ghost := true, base := (1 : ℚ) }, 1) :=
  ⟨rfl,
   (hitFilters_skip_originator_and_ghosts sceneWorld (some 3) false (collider (some 3) 0) true 3
      rfl (Or.inl rfl)).1 ℚ recordRayHit 1 (1 / 4),
   (hitFilters_skip_originator_and_ghosts sceneWorld none true (collider (some 4) 0) true 4
      rfl (Or.inr ⟨rfl, rfl⟩)).2 ℚ recordConvexHit 1 (1 / 4)⟩

/-! ### Level names and autoexec script names -/

/-- No index is found when no character satisfies the predicate. -/
theorem findLastIdx_none_of_forall (p : Char → Bool) (s : StdString)
    (h : ∀ c ∈ s, p c = false) : findLastIdx p s = none := by
  induction s with
  | nil => rfl
  | cons c cs ih =>
    have hcs : findLastIdx p cs = none := ih (fun d hd => h d (List.mem_cons_of_mem c hd))
    have hc : p c = false := h c (List.mem_cons_self c cs)
    simp [findLastIdx, hcs, hc]

/-- When no index is found, no character satisfies the predicate. -/
theorem forall_of_findLastIdx_none (p : Char → Bool) (s : StdString)
    (h : findLastIdx p s = none) : ∀ c ∈ s, p c = false := by
  induction s with
  | nil => intro c hc; cases hc
  | cons d ds ih =>
    unfold findLastIdx at h
    cases hds : findLastIdx p ds with
    | some i => rw [hds] at h; cases h
    | none =>
      rw [hds] at h
      cases hd : p d with
      | true => simp [hd] at h
      | false =>
        intro c hc
        rcases List.mem_cons.mp hc with rfl | hmem
        · exact hd
        · exact ih hds c hmem

/-- The index found for a string whose last character satisfying the predicate
is known: it is the position of that character. -/
theorem findLastIdx_append_cons (p : Char → Bool) (xs ys : StdString) (c : Char)
    (hc : p c = true) (hys : ∀ y ∈ ys, p y = false) :
    findLastIdx p (xs ++ c :: ys) = some xs.length := by
  induction xs with
  | nil => simp [findLastIdx, findLastIdx_none_of_forall p ys hys, hc]
  | cons x xs ih => simp [findLastIdx, ih]

/-- The index found lies inside the string, and no character after it
satisfies the predicate. -/
theorem findLastIdx_some_spec (p : Char → Bool) :
    ∀ (s : StdString) (i : Nat), findLastIdx p s = some i →
      i < s.length ∧ ∀ c ∈ s.drop (i + 1), p c = false := by
  intro s
  induction s with
  | nil => intro i h; cases h
  | cons d ds ih =>
    intro i h
    unfold findLastIdx at h
    cases hds : findLastIdx p ds with
    | some j =>
      rw [hds] at h
      have hi : i = j + 1 := by
        have := Option.some.inj h
        omega
      subst hi
      obtain ⟨hj, hrest⟩ := ih j hds
      exact ⟨by simp only [List.length_cons]; omega, by simpa using hrest⟩
    | none =>
      rw [hds] at h
      cases hd : p d with
      | false => simp [hd] at h
      | true =>
        simp only [hd, if_true] at h
        have hi : i = 0 := (Option.some.inj h).symm
        subst hi
        exact ⟨by simp, by simpa using forall_of_findLastIdx_none p ds hds⟩

/-- Membership in the one-character set of the extension dot. -/
theorem dot_contains (c : Char) : (['.'].contains c) = decide (c = '.') := by
  by_cases h : c = '.' <;> simp [h]

/-- The level name of a path that decomposes into a leading part (empty, or
ending in its last separator), a name free of separators, the last dot and an
extension free of dots and separators: it is the name. -/
theorem getLevelName_decomposed (lead name extn : StdString)
    (hlead : lead = [] ∨ ∃ dir sep, isSeparator sep = true ∧ lead = dir ++ [sep])
    (hname : ∀ c ∈ name, isSeparator c = false)
    (hextn : ∀ c ∈ extn, c ≠ '.' ∧ isSeparator c = false)
    (hsize : (lead ++ name ++ '.' :: extn).length < 2 ^ 64) :
    getLevelName (lead ++ name ++ '.' :: extn) = some name := by
  have hext : findLastIdx (fun c => ['.'].contains c) (lead ++ name ++ '.' :: extn) =
      some (lead ++ name).length :=
    findLastIdx_append_cons _ (lead ++ name) extn '.' (by decide)
      (fun y hy => by simpa [dot_contains] using (hextn y hy).1)
  have hlen : (lead ++ name ++ '.' :: extn).length =
      lead.length + name.length + 1 + extn.length := by
    simp only [List.length_append, List.length_cons]; omega
  have hnpos : npos = 2 ^ 64 - 1 := rfl
  rcases hlead with hnil | ⟨dir, sep, hsep, hdir⟩
  · subst hnil
    have hsepidx : findLastIdx (fun c => ['\\', '/'].contains c) ([] ++ name ++ '.' :: extn) =
        none := by
      apply findLastIdx_none_of_forall
      intro c hc
      simp only [List.nil_append, List.mem_append, List.mem_cons] at hc
      rcases hc with h | h | h
      · exact hname c h
      · subst h; decide
      · exact (hextn c h).2
    simp only [List.nil_append, List.length_nil, Nat.zero_add] at hlen hext hsepidx hsize ⊢
    have hne : name.length ≠ npos := by rw [hnpos]; omega
    have hmod : (name.length + 2 ^ 64 - 0) % 2 ^ 64 = name.length := by
      rw [Nat.sub_zero, Nat.add_mod_right]
      exact Nat.mod_eq_of_lt (by omega)
    have hne' : name ++ '.' :: extn ≠ [] := by
      cases name <;> simp
    simp only [getLevelName, find_last_of, hext, hsepidx, hne, List.isEmpty_iff, hne',
      if_false, if_true, hmod, substr]
    simp
  · subst hdir
    have hsepidx : findLastIdx (fun c => ['\\', '/'].contains c)
        (dir ++ [sep] ++ name ++ '.' :: extn) = some dir.length := by
      have hre : dir ++ [sep] ++ name ++ '.' :: extn = dir ++ sep :: (name ++ '.' :: extn) := by
        simp
      rw [hre]
      apply findLastIdx_append_cons _ dir _ sep hsep
      intro c hc
      simp only [List.mem_append, List.mem_cons] at hc
      rcases hc with h | h | h
      · exact hname c h
      · subst h; decide
      · exact (hextn c h).2
    simp only [List.length_append, List.length_cons, List.length_nil] at hlen hext hsize
    have hne : dir.length + (0 + 1) + name.length ≠ npos := by rw [hnpos]; omega
    have hne2 : dir.length ≠ npos := by rw [hnpos]; omega
    have hstart : (dir.length + 1) % 2 ^ 64 = dir.length + 1 := Nat.mod_eq_of_lt (by omega)
    have hmod : (dir.length + (0 + 1) + name.length + 2 ^ 64 - (dir.length + 1)) % 2 ^ 64 =
        name.length := by
      have : dir.length + (0 + 1) + name.length + 2 ^ 64 - (dir.length + 1) =
          name.length + 2 ^ 64 := by omega
      rw [this, Nat.add_mod_right]
      exact Nat.mod_eq_of_lt (by omega)
    have hne' : dir ++ [sep] ++ name ++ '.' :: extn ≠ [] := by simp
    simp only [getLevelName, find_last_of, hext, hsepidx, hne, hne2, List.isEmpty_iff, hne',
      if_false, hstart, hmod, substr]
    simp

/-- C21: the level name of the empty path is empty; and for a path made of a
leading part (empty when the path has no separator, otherwise everything up to
and including the last separator), a name, the last dot and an extension,
`getLevelName` returns exactly the name, the characters strictly between the
last separator (or the start) and the last dot.  For `data/tr1/LEVEL1.PHD`
this is `LEVEL1`. -/
theorem getLevelName_strips_directory_and_extension (lead name extn : StdString)
    (hlead : lead = [] ∨ ∃ dir sep, isSeparator sep = true ∧ lead = dir ++ [sep])
    (hname : ∀ c ∈ name, isSeparator c = false)
    (hextn : ∀ c ∈ extn, c ≠ '.' ∧ isSeparator c = false)
    (hsize : (lead ++ name ++ '.' :: extn).length < 2 ^ 64) :
    getLevelName [] = some [] ∧
    getLevelName (lead ++ name ++ '.' :: extn) = some name ∧
    getLevelName "data/tr1/LEVEL1.PHD".toList = some "LEVEL1".toList :=
  ⟨rfl, getLevelName_decomposed lead name extn hlead hname hextn hsize, by decide⟩

/-- Witness for C21: `data/tr1/LEVEL1.PHD` with the leading part `data/tr1/`,
and `a.b.c` without separator, whose name `a.b` keeps its inner dot. -/
theorem getLevelName_strips_directory_and_extension_witness :
    getLevelName ("data/tr1/".toList ++ "LEVEL1".toList ++ '.' :: "PHD".toList) =
      some "LEVEL1".toList ∧
    getLevelName ([] ++ "a.b".toList ++ '.' :: "c".toList) = some "a.b".toList :=
  ⟨(getLevelName_strips_directory_and_extension "data/tr1/".toList "LEVEL1".toList "PHD".toList
      (Or.inr ⟨"data/tr1".toList, '/', rfl, rfl⟩) (by decide) (by decide) (by decide)).2.1,
   (getLevelName_strips_directory_and_extension [] "a.b".toList "c".toList
      (Or.inl rfl) (by decide) (by decide) (by decide)).2.1⟩

/-- A separator is not the extension dot. -/
theorem isSeparator_ne_dot (c : Char) (h : isSeparator c = true) : c ≠ '.' := by
  intro hc
  subst hc
  exact absurd h (by decide)

/-- The level name of a path whose last dot precedes its last separator: the
positions found, the wrapped length argument, and the result, which is the
whole final component. -/
theorem getLevelName_dot_before_separator (pre mid name : StdString) (sep : Char)
    (hsep : isSeparator sep = true)
    (hmid : ∀ c ∈ mid, c ≠ '.')
    (hname : ∀ c ∈ name, c ≠ '.' ∧ isSeparator c = false)
    (hsize : (pre ++ '.' :: (mid ++ sep :: name)).length < 2 ^ 64) :
    find_last_of (pre ++ '.' :: (mid ++ sep :: name)) ['.'] = pre.length ∧
    find_last_of (pre ++ '.' :: (mid ++ sep :: name)) ['\\', '/'] = pre.length + 1 + mid.length ∧
    (pre.length + 2 ^ 64 - (pre.length + 1 + mid.length + 1)) % 2 ^ 64 =
      2 ^ 64 - (mid.length + 2) ∧
    getLevelName (pre ++ '.' :: (mid ++ sep :: name)) = some name := by
  have hext : findLastIdx (fun c => ['.'].contains c) (pre ++ '.' :: (mid ++ sep :: name)) =
      some pre.length := by
    apply findLastIdx_append_cons _ pre _ '.' (by decide)
    intro y hy
    simp only [List.mem_append, List.mem_cons] at hy
    rcases hy with h | h | h
    · simpa [dot_contains] using hmid y h
    · subst h; simpa [dot_contains] using isSeparator_ne_dot y hsep
    · simpa [dot_contains] using (hname y h).1
  have hre : pre ++ '.' :: (mid ++ sep :: name) = (pre ++ '.' :: mid) ++ sep :: name := by simp
  have hsepidx : findLastIdx (fun c => ['\\', '/'].contains c)
      (pre ++ '.' :: (mid ++ sep :: name)) = some (pre.length + 1 + mid.length) := by
    rw [hre]
    have hfound := findLastIdx_append_cons (fun c => ['\\', '/'].contains c)
      (pre ++ '.' :: mid) name sep hsep (fun y hy => (hname y hy).2)
    have hlen2 : (pre ++ '.' :: mid).length = pre.length + 1 + mid.length := by
      simp only [List.length_append, List.length_cons]; omega
    rw [hfound, hlen2]
  have hlen : (pre ++ '.' :: (mid ++ sep :: name)).length =
      pre.length + 1 + mid.length + 1 + name.length := by
    simp only [List.length_append, List.length_cons]; omega
  rw [hlen] at hsize
  have hnpos : npos = 2 ^ 64 - 1 := rfl
  have hcount : (pre.length + 2 ^ 64 - (pre.length + 1 + mid.length + 1)) % 2 ^ 64 =
      2 ^ 64 - (mid.length + 2) := by
    have : pre.length + 2 ^ 64 - (pre.length + 1 + mid.length + 1) = 2 ^ 64 - (mid.length + 2) := by
      omega
    rw [this]
    exact Nat.mod_eq_of_lt (by omega)
  have hfind1 : find_last_of (pre ++ '.' :: (mid ++ sep :: name)) ['.'] = pre.length := by
    simp only [find_last_of, hext]
  have hfind2 : find_last_of (pre ++ '.' :: (mid ++ sep :: name)) ['\\', '/'] =
      pre.length + 1 + mid.length := by
    simp only [find_last_of, hsepidx]
  refine ⟨hfind1, hfind2, hcount, ?_⟩
  have hne1 : pre.length ≠ npos := by rw [hnpos]; omega
  have hne2 : pre.length + 1 + mid.length ≠ npos := by rw [hnpos]; omega
  have hstart : (pre.length + 1 + mid.length + 1) % 2 ^ 64 = pre.length + 1 + mid.length + 1 :=
    Nat.mod_eq_of_lt (by omega)
  have hnonempty : pre ++ '.' :: (mid ++ sep :: name) ≠ [] := by simp
  have hdrop : (pre ++ '.' :: (mid ++ sep :: name)).drop (pre.length + 1 + mid.length + 1) =
      name := by
    have hre2 : pre ++ '.' :: (mid ++ sep :: name) = (pre ++ '.' :: mid ++ [sep]) ++ name := by
      simp
    rw [hre2]
    apply List.drop_left'
    simp only [List.length_append, List.length_cons, List.length_nil]
    omega
  have hnotgt : ¬ pre.length + 1 + mid.length + 1 >
      (pre ++ '.' :: (mid ++ sep :: name)).length := by
    rw [hlen]; omega
  unfold getLevelName
  simp only [List.isEmpty_iff, hnonempty, if_false, hfind1, hfind2, hne1, hne2, hstart, hcount,
    substr, hnotgt, hdrop]
  congr 1
  apply List.take_of_length_le
  omega

/-- For a path that contains a dot, `getLevelName` returns, and what it
returns holds no path separator. -/
theorem getLevelName_no_separator (path : StdString) (hdot : '.' ∈ path)
    (hsize : path.length < 2 ^ 64) :
    ∃ r, getLevelName path = some r ∧ ∀ c ∈ r, isSeparator c = false := by
  have hnpos : npos = 2 ^ 64 - 1 := rfl
  have hnonempty : path ≠ [] := by
    intro h; rw [h] at hdot; cases hdot
  obtain ⟨e, he⟩ : ∃ e, findLastIdx (fun c => ['.'].contains c) path = some e := by
    cases h : findLastIdx (fun c => ['.'].contains c) path with
    | some e => exact ⟨e, rfl⟩
    | none =>
      have := forall_of_findLastIdx_none _ path h '.' hdot
      exact absurd this (by decide)
  have helt := (findLastIdx_some_spec _ path e he).1
  have hene : e ≠ npos := by rw [hnpos]; omega
  cases hs : findLastIdx (fun c => ['\\', '/'].contains c) path with
  | none =>
    refine ⟨path.take ((e + 2 ^ 64 - 0) % 2 ^ 64), ?_, ?_⟩
    · simp only [getLevelName, find_last_of, he, hs, hene, List.isEmpty_iff, hnonempty,
        if_false, if_true, substr, gt_iff_lt, Nat.not_lt_zero, List.drop_zero]
    · intro c hc
      exact forall_of_findLastIdx_none _ path hs c (List.mem_of_mem_take hc)
  | some i =>
    obtain ⟨hilt, hafter⟩ := findLastIdx_some_spec _ path i hs
    have hine : i ≠ npos := by rw [hnpos]; omega
    have hstart : (i + 1) % 2 ^ 64 = i + 1 := Nat.mod_eq_of_lt (by omega)
    have hnotgt : ¬ i + 1 > path.length := by omega
    refine ⟨(path.drop (i + 1)).take ((e + 2 ^ 64 - (i + 1)) % 2 ^ 64), ?_, ?_⟩
    · simp only [getLevelName, find_last_of, he, hs, hene, hine, List.isEmpty_iff, hnonempty,
        if_false, hstart, substr, hnotgt]
    · intro c hc
      exact hafter c (List.mem_of_mem_take hc)

/-- C22: for a path whose last dot lies before its last separator (a dot in a
directory name, none in the file name), the position of the dot is smaller
than the start position, the length argument `ext - start` wraps to
`2 ^ 64 - (start - ext)`, and `getLevelName` returns the whole final path
component; `my.dir/level` gives `level`.  Consequently, for every path that
contains a dot, the result holds no path separator. -/
theorem getLevelName_directory_dot_wraps (pre mid name : StdString) (sep : Char)
    (hsep : isSeparator sep = true)
    (hmid : ∀ c ∈ mid, c ≠ '.')
    (hname : ∀ c ∈ name, c ≠ '.' ∧ isSeparator c = false)
    (hsize : (pre ++ '.' :: (mid ++ sep :: name)).length < 2 ^ 64) :
    (find_last_of (pre ++ '.' :: (mid ++ sep :: name)) ['.'] = pre.length ∧
      find_last_of (pre ++ '.' :: (mid ++ sep :: name)) ['\\', '/'] + 1 =
        pre.length + (mid.length + 2) ∧
      (pre.length + 2 ^ 64 - (pre.length + (mid.length + 2))) % 2 ^ 64 =
        2 ^ 64 - (mid.length + 2)) ∧
    getLevelName (pre ++ '.' :: (mid ++ sep :: name)) = some name ∧
    getLevelName "my.dir/level".toList = some "level".toList ∧
    (∀ path : StdString, '.' ∈ path → path.length < 2 ^ 64 →
      ∃ r, getLevelName path = some r ∧ ∀ c ∈ r, isSeparator c = false) := by
  obtain ⟨h1, h2, h3, h4⟩ := getLevelName_dot_before_separator pre mid name sep hsep hmid hname
    hsize
  refine ⟨⟨h1, ?_, ?_⟩, h4, by decide, getLevelName_no_separator⟩
  · rw [h2]; omega
  · have hre : pre.length + (mid.length + 2) = pre.length + 1 + mid.length + 1 := by omega
    rw [hre]; exact h3

/-- Witness for C22: in `my.dir/level` the dot is at position 2 and the start
at position 7; the length argument is `2 ^ 64 - 5` and the result `level`. -/
theorem getLevelName_directory_dot_wraps_witness :
    find_last_of ("my".toList ++ '.' :: ("dir".toList ++ '/' :: "level".toList)) ['.'] = 2 ∧
    find_last_of ("my".toList ++ '.' :: ("dir".toList ++ '/' :: "level".toList)) ['\\', '/'] + 1
      = 7 ∧
    (2 + 2 ^ 64 - 7) % 2 ^ 64 = 2 ^ 64 - 5 ∧
    getLevelName ("my".toList ++ '.' :: ("dir".toList ++ '/' :: "level".toList)) =
      some "level".toList :=
  have h := getLevelName_directory_dot_wraps "my".toList "dir".toList "level".toList '/'
    (by decide) (by decide) (by decide) (by decide)
  ⟨h.1.1, h.1.2.1, h.1.2.2, h.2.1⟩

/-- The chain of comparisons in `getAutoexecName` selects the directory the
specification names. -/
theorem autoexecDir_eq_chain (TR2 TR3 TR4 TR5 v : Nat) :
    (if v < TR2 then "scripts/autoexec/".toList ++ "tr1/".toList
      else if v < TR3 then "scripts/autoexec/".toList ++ "tr2/".toList
      else if v < TR4 then "scripts/autoexec/".toList ++ "tr3/".toList
      else if v < TR5 then "scripts/autoexec/".toList ++ "tr4/".toList
      else "scripts/autoexec/".toList ++ "tr5/".toList) =
    "scripts/autoexec/".toList ++ autoexecDir TR2 TR3 TR4 TR5 v := by
  unfold autoexecDir
  by_cases h2 : v < TR2
  · simp only [h2, if_true]
  · by_cases h3 : v < TR3
    · simp only [h2, h3, if_false, if_true, Nat.le_of_not_lt h2, and_self]
    · by_cases h4 : v < TR4
      · simp only [h2, h3, h4, if_false, if_true, Nat.le_of_not_lt h3, and_self, and_false]
      · by_cases h5 : v < TR5
        · simp only [h2, h3, h4, h5, if_false, if_true, Nat.le_of_not_lt h4, and_self,
            and_false]
        · simp only [h2, h3, h4, h5, if_false, and_false]

/-- C23: for every game version and suffix, `getAutoexecName` is
`scripts/autoexec/` followed by the directory of the version, the level name
of the current level path with each character passed through `toupper`, the
suffix as given, and `.lua`; it returns whenever `getLevelName` does, in
particular for an empty level path and for one that contains a dot. -/
theorem getAutoexecName_spec (TR2 TR3 TR4 TR5 : Nat) (levelPath : StdString) (v : Nat)
    (suffix : StdString) :
    getAutoexecName TR2 TR3 TR4 TR5 levelPath v suffix =
      (getLevelName levelPath).map (fun level_name =>
        "scripts/autoexec/".toList ++ autoexecDir TR2 TR3 TR4 TR5 v ++
          level_name.map toupper ++ suffix ++ ".lua".toList) ∧
    ((levelPath = [] ∨ '.' ∈ levelPath) → levelPath.length < 2 ^ 64 →
      ∃ level_name, getLevelName levelPath = some level_name ∧
        getAutoexecName TR2 TR3 TR4 TR5 levelPath v suffix =
          some ("scripts/autoexec/".toList ++ autoexecDir TR2 TR3 TR4 TR5 v ++
            level_name.map toupper ++ suffix ++ ".lua".toList)) := by
  have hmain : getAutoexecName TR2 TR3 TR4 TR5 levelPath v suffix =
      (getLevelName levelPath).map (fun level_name =>
        "scripts/autoexec/".toList ++ autoexecDir TR2 TR3 TR4 TR5 v ++
          level_name.map toupper ++ suffix ++ ".lua".toList) := by
    unfold getAutoexecName
    cases hl : getLevelName levelPath with
    | none => rfl
    | some level_name =>
      simp only [Option.map_some']
      rw [autoexecDir_eq_chain]
  refine ⟨hmain, ?_⟩
  intro hpath hsize
  have hreturns : ∃ level_name, getLevelName levelPath = some level_name := by
    rcases hpath with h | h
    · exact ⟨[], by rw [h]; rfl⟩
    · obtain ⟨r, hr, _⟩ := getLevelName_no_separator levelPath h hsize
      exact ⟨r, hr⟩
  obtain ⟨level_name, hl⟩ := hreturns
  exact ⟨level_name, hl, by rw [hmain, hl]; rfl⟩

/-- Witness for C23: with the level path `data/tr1/level1.phd` and version
values 1 for the first game and 4, 6, 7, 9 for `TR2` to `TR5`, version 1 and
the suffix `_autoexec` give `scripts/autoexec/tr1/LEVEL1_autoexec.lua`, and
version 6 gives the `tr3/` directory. -/
theorem getAutoexecName_spec_witness :
    getAutoexecName 4 6 7 9 "data/tr1/level1.phd".toList 1 "_autoexec".toList =
      some "scripts/autoexec/tr1/LEVEL1_autoexec.lua".toList ∧
    getAutoexecName 4 6 7 9 "data/tr1/level1.phd".toList 6 "_autoexec".toList =
      some "scripts/autoexec/tr3/LEVEL1_autoexec.lua".toList :=
  ⟨(getAutoexecName_spec 4 6 7 9 "data/tr1/level1.phd".toList 1 "_autoexec".toList).1.trans
      (by decide),
   (getAutoexecName_spec 4 6 7 9 "data/tr1/level1.phd".toList 6 "_autoexec".toList).1.trans
      (by decide)⟩

end engine
